import Mathlib

/-!
Verification development for the RayTrace puzzle game (`src/raytrace.js`).

The JavaScript source is shallowly embedded: JS floating-point numbers are
modelled as real numbers, JS arrays as lists, the mutable `Level` object as an
explicit record threaded through the generation functions, and the seeded
random source as an abstract stream `s : ℕ → ℝ` of the values produced by
`rng.next()` together with an explicit read position.  Bounded `for`/`while`
loops of the source become structurally recursive functions on the loop bound.
-/

namespace RayTrace

noncomputable section

open Real

/-- Two-dimensional vector, modelling the `[x, y]` pairs of the source. -/
abbrev Vec := ℝ × ℝ

/-- An axis-aligned box `[x, y, w, h]` as used for `this.bounds` and AABBs. -/
abbrev AABB := ℝ × ℝ × ℝ × ℝ

-- Constants of raytrace.js (lines 6-43).
def VIRTUAL_W : ℝ := 1000
def VIRTUAL_H : ℝ := 1000
def ROUND_TIME : ℝ := 60
def MAX_BOUNCES : ℕ := 20
def CORNER_TOL_FRAC : ℝ := 0.02
def RAY_EPS : ℝ := 1e-6
def STEP_EPS : ℝ := 1e-3
def SAFE_MARGIN : ℝ := 60
def TIME_BONUS_FACTOR : ℝ := 0.25
def BASE_SCORE_SCALE : ℝ := 10
def ANGLE_NOISE_SIGMA_DEG : ℝ := 1.5

/-- `clamp(x, a, b)` of the source. -/
def clampR (x a b : ℝ) : ℝ := max a (min b x)

-- Vector operations (raytrace.js lines 79-92).
def vAdd (a b : Vec) : Vec := (a.1 + b.1, a.2 + b.2)
def vSub (a b : Vec) : Vec := (a.1 - b.1, a.2 - b.2)
def vMul (a : Vec) (s : ℝ) : Vec := (a.1 * s, a.2 * s)
def vDot (a b : Vec) : ℝ := a.1 * b.1 + a.2 * b.2
def vCross (a b : Vec) : ℝ := a.1 * b.2 - a.2 * b.1
def vLen (a : Vec) : ℝ := Real.sqrt (a.1 ^ 2 + a.2 ^ 2)
def vLen2 (a : Vec) : ℝ := a.1 * a.1 + a.2 * a.2
def vNorm (a : Vec) : Vec :=
  if vLen a ≤ 1e-12 then (0, 0) else (a.1 / vLen a, a.2 / vLen a)
def vPerp (a : Vec) : Vec := (-a.2, a.1)
def vDist (a b : Vec) : ℝ := vLen (vSub a b)
def vRot (a : Vec) (ang : ℝ) : Vec :=
  (a.1 * Real.cos ang - a.2 * Real.sin ang, a.1 * Real.sin ang + a.2 * Real.cos ang)
def reflect (v n : Vec) : Vec := vSub v (vMul n (2 * vDot v n))

/-- `Math.atan2(y, x)` on real arguments (signed zeros do not arise over ℝ). -/
def atan2R (y x : ℝ) : ℝ :=
  if 0 < x then Real.arctan (y / x)
  else if x < 0 then
    (if 0 ≤ y then Real.arctan (y / x) + Real.pi else Real.arctan (y / x) - Real.pi)
  else if 0 < y then Real.pi / 2 else if y < 0 then -(Real.pi / 2) else 0

/-- `angle_of` of the source. -/
def angleOf (v : Vec) : ℝ := atan2R v.2 v.1

/-- Truncation toward zero, the rounding used by the JS `%` operator. -/
def jsTrunc (x : ℝ) : ℤ := if 0 ≤ x then ⌊x⌋ else ⌈x⌉

/-- The JS remainder operator `x % y` (sign follows the dividend). -/
def jsMod (x y : ℝ) : ℝ := x - y * (jsTrunc (x / y) : ℝ)

/-- `angle_diff` of the source. -/
def angleDiff (a b : ℝ) : ℝ :=
  |jsMod (a - b + Real.pi) (2 * Real.pi) - Real.pi|

/-- `Math.sign`. -/
def signR (x : ℝ) : ℝ := if 0 < x then 1 else if x < 0 then -1 else 0

/-- The Abramowitz–Stegun erf approximation of the source (lines 67-75). -/
def erfAS (x : ℝ) : ℝ :=
  let sign := signR x
  let x' := |x|
  let a1 : ℝ := 0.254829592
  let a2 : ℝ := -0.284496736
  let a3 : ℝ := 1.421413741
  let a4 : ℝ := -1.453152027
  let a5 : ℝ := 1.061405429
  let p : ℝ := 0.3275911
  let t : ℝ := 1 / (1 + p * x')
  let y : ℝ := 1 - (((((a5 * t + a4) * t) + a3) * t + a2) * t + a1) * t * Real.exp (-(x' * x'))
  sign * y

/-- `Phi` of the source: normal CDF via the erf approximation. -/
def PhiAS (x : ℝ) : ℝ := 0.5 * (1 + erfAS (x / Real.sqrt 2))

/-- `line_line_intersection(A, B, C, D)` (lines 94-103). -/
def lineLineIntersection (A B C D : Vec) : Option (ℝ × ℝ × Vec) :=
  let r := vSub B A
  let s := vSub D C
  let rxs := vCross r s
  if |rxs| < 1e-12 then none
  else
    let t := vCross (vSub C A) s / rxs
    let u := vCross (vSub C A) r / rxs
    some (t, u, vAdd A (vMul r t))

/-- `project_point_to_line(P, A, B)` (lines 104-110). -/
def projectPointToLine (P A B : Vec) : ℝ × Vec :=
  let AB := vSub B A
  let L2 := vLen2 AB
  if L2 ≤ 1e-12 then (0, A)
  else
    let t := vDot (vSub P A) AB / L2
    (t, vAdd A (vMul AB t))

/-- `point_to_line_distance(P, A, B)` (lines 111-114). -/
def pointToLineDistance (P A B : Vec) : ℝ :=
  vDist P (projectPointToLine P A B).2

/-- `ray_segment_intersection(p, r, a, b)` (lines 115-127). -/
def raySegmentIntersection (p r a b : Vec) : Option (ℝ × ℝ × Vec) :=
  let s := vSub b a
  let rxs := vCross r s
  if |rxs| < 1e-12 then none
  else
    let qp := vSub a p
    let t := vCross qp s / rxs
    let u := vCross qp r / rxs
    if RAY_EPS < t ∧ 0 ≤ u ∧ u ≤ 1 then some (t, u, vAdd p (vMul r t)) else none

/-- The interval of ray parameters cut out by one slab of the AABB method. -/
def slabLoHi (o d mn mx : ℝ) : ℝ × ℝ :=
  (min ((mn - o) / d) ((mx - o) / d), max ((mn - o) / d) ((mx - o) / d))

/-- The final `t` selection of `ray_aabb_intersection` from the slab interval. -/
def finishIntersection (tmin tmax : ℝ) : Option ℝ :=
  if tmax < RAY_EPS then none
  else if RAY_EPS < tmin then some tmin
  else if RAY_EPS < tmax then some tmax
  else none

/-- `ray_aabb_intersection(p, r, aabb)` (lines 128-152).  The two iterations of
the per-axis loop are unrolled.  When both axes are degenerate (`|d| < 1e-12`)
and the origin lies inside both slabs, the source returns `Infinity`; that
value never wins a strict nearest-`t` comparison at any call site (every
comparison is against either `Infinity` or a finite candidate), so it is
modelled as `none`, which the call sites treat identically. -/
def rayAABBIntersection (p r : Vec) (aabb : AABB) : Option ℝ :=
  let minx := aabb.1
  let miny := aabb.2.1
  let maxx := aabb.1 + aabb.2.2.1
  let maxy := aabb.2.1 + aabb.2.2.2
  if |r.1| < 1e-12 then
    if p.1 < minx ∨ maxx < p.1 then none
    else
      if |r.2| < 1e-12 then
        if p.2 < miny ∨ maxy < p.2 then none
        else none
      else
        let lh := slabLoHi p.2 r.2 miny maxy
        finishIntersection lh.1 lh.2
  else
    let lh1 := slabLoHi p.1 r.1 minx maxx
    if |r.2| < 1e-12 then
      if p.2 < miny ∨ maxy < p.2 then none
      else finishIntersection lh1.1 lh1.2
    else
      let lh2 := slabLoHi p.2 r.2 miny maxy
      let tmin := max lh1.1 lh2.1
      let tmax := min lh1.2 lh2.2
      if tmax < tmin then none
      else finishIntersection tmin tmax

/-- The final check of `ray_aabb_exit_distance_from_inside`. -/
def exitFinish (tmax : ℝ) : Option ℝ :=
  if RAY_EPS < tmax then some tmax else none

/-- `ray_aabb_exit_distance_from_inside(p, r, aabb)` (lines 153-167), with the
two loop iterations unrolled.  A degenerate axis is skipped; if both axes are
degenerate the source returns `Infinity`, which never wins a strict
nearest-`t` comparison at any call site and is modelled as `none`. -/
def rayAABBExitDistanceFromInside (p r : Vec) (aabb : AABB) : Option ℝ :=
  let minx := aabb.1
  let miny := aabb.2.1
  let maxx := aabb.1 + aabb.2.2.1
  let maxy := aabb.2.1 + aabb.2.2.2
  if |r.1| < 1e-12 then
    if |r.2| < 1e-12 then none
    else exitFinish (max ((miny - p.2) / r.2) ((maxy - p.2) / r.2))
  else
    let hi1 := max ((minx - p.1) / r.1) ((maxx - p.1) / r.1)
    if |r.2| < 1e-12 then exitFinish hi1
    else exitFinish (min hi1 (max ((miny - p.2) / r.2) ((maxy - p.2) / r.2)))

-- Entities (raytrace.js lines 170-188).

/-- A reflector segment. -/
structure Reflector where
  a : Vec
  b : Vec
  is_noise : Bool
  is_blocker : Bool

/-- `Reflector.direction()`. -/
def Reflector.direction (r : Reflector) : Vec := vNorm (vSub r.b r.a)

/-- `Reflector.normal()`. -/
def Reflector.normal (r : Reflector) : Vec :=
  let t := r.direction
  let n := vPerp t
  let l := vLen n
  if l ≤ 1e-12 then (0, 0) else (n.1 / l, n.2 / l)

/-- The target rectangle. -/
structure Target where
  x : ℝ
  y : ℝ
  w : ℝ
  h : ℝ

/-- `Target.center()`. -/
def Target.center (t : Target) : Vec := (t.x + t.w / 2, t.y + t.h / 2)

/-- `Target.aabb()`. -/
def Target.aabb (t : Target) : AABB := (t.x, t.y, t.w, t.h)

-- The ray caster (raytrace.js lines 352-435).

/-- Why a cast path ended: the values of `hit_reason`. -/
inductive Reason where
  | hit
  | miss
  | dud
deriving DecidableEq

/-- Per-bounce event metadata collected when `return_events` is set. -/
inductive Event where
  | target (t : ℝ) (point : Vec)
  | exitEv (t : ℝ) (point : Vec)
  | endpointDud (t : ℝ) (point : Vec) (u : ℝ)
  | reflector (idx : ℕ) (t u : ℝ) (point : Vec)

/-- A candidate nearest event during one step of the cast loop.  The source
tracks it in the mutable variables `nearest_t`, `nearest_point`,
`nearest_reflector_idx` (with `-2` marking an endpoint dud) and
`nearest_is_target`; the reflector of a `refl` candidate is carried along so
the bounce does not have to re-index the list. -/
inductive Cand where
  | refl (idx : ℕ) (r : Reflector) (t u : ℝ) (point : Vec)
  | dud (t u : ℝ) (point : Vec)
  | target (t : ℝ) (point : Vec)
  | exitC (t : ℝ) (point : Vec)

/-- The `t` of a candidate, the quantity compared against `nearest_t`. -/
def Cand.tOf : Cand → ℝ
  | .refl _ _ t _ _ => t
  | .dud t _ _ => t
  | .target t _ => t
  | .exitC t _ => t

/-- The body of the reflector loop of `_raycast_path` (lines 366-381) for a
single index-paired reflector: skip the previously used reflector, then keep
the strictly nearest hit, with hits inside the corner tolerance band marked
as duds. -/
def foldReflStep (lastR : Option ℕ) (p dir : Vec) (idx : ℕ) (r : Reflector)
    (acc : Option Cand) : Option Cand :=
  if lastR = some idx then acc
  else
    match raySegmentIntersection p dir r.a r.b with
    | none => acc
    | some (t, u, hitp) =>
      if u < CORNER_TOL_FRAC ∨ 1 - CORNER_TOL_FRAC < u then
        match acc with
        | none => some (.dud t u hitp)
        | some c => if t < c.tOf then some (.dud t u hitp) else acc
      else
        match acc with
        | none => some (.refl idx r t u hitp)
        | some c => if t < c.tOf then some (.refl idx r t u hitp) else acc

/-- One pass of the reflector loop of `_raycast_path` (lines 365-382): fold
the per-reflector body over the index-paired reflectors. -/
def foldRefl (lastR : Option ℕ) (p dir : Vec) :
    List (ℕ × Reflector) → Option Cand → Option Cand
  | [], acc => acc
  | (idx, r) :: rest, acc => foldRefl lastR p dir rest (foldReflStep lastR p dir idx r acc)

/-- Index-pair a reflector list starting at `n`. -/
def enumFrom (n : ℕ) : List Reflector → List (ℕ × Reflector)
  | [] => []
  | r :: rs => (n, r) :: enumFrom (n + 1) rs

/-- The full nearest-event selection of one iteration of `_raycast_path`
(lines 361-398): reflector hits, then the target box, then the bounds exit,
each replacing the current candidate only on a strictly smaller `t`. -/
def nearestCandidate (rs : List Reflector) (tgt : Target) (bounds : AABB)
    (lastR : Option ℕ) (p dir : Vec) : Option Cand :=
  let c1 := foldRefl lastR p dir (enumFrom 0 rs) none
  let c2 :=
    match rayAABBIntersection p dir tgt.aabb with
    | none => c1
    | some t =>
      match c1 with
      | none => some (.target t (vAdd p (vMul dir t)))
      | some c => if t < c.tOf then some (.target t (vAdd p (vMul dir t))) else c1
  match rayAABBExitDistanceFromInside p dir bounds with
  | none => c2
  | some t =>
    match c2 with
    | none => some (.exitC t (vAdd p (vMul dir t)))
    | some c => if t < c.tOf then some (.exitC t (vAdd p (vMul dir t))) else c2

/-- The bounce loop of `_raycast_path` (lines 360-431).  `fuel` is the number
of remaining loop iterations (`max_bounces + 1` at the start); `pts` is the
accumulated `points` array, whose last element is the current position; on a
reflector bounce the just-pushed point is nudged by `STEP_EPS` along the new
direction, as in line 430 of the source. -/
def raycastLoop (rs : List Reflector) (tgt : Target) (bounds : AABB) :
    ℕ → List Vec → Vec → Vec → Option ℕ → List Event →
    List Vec × Bool × Reason × List Event
  | 0, pts, _, _, _, evs => (pts, false, .miss, evs)
  | fuel + 1, pts, cur, dirCurr, lastR, evs =>
    match nearestCandidate rs tgt bounds lastR cur dirCurr with
    | none => (pts ++ [vAdd cur (vMul dirCurr 9999)], false, .miss, evs)
    | some (.target t point) => (pts ++ [point], true, .hit, evs ++ [.target t point])
    | some (.exitC t point) => (pts ++ [point], false, .miss, evs ++ [.exitEv t point])
    | some (.dud t u point) =>
      (pts ++ [point], false, .dud, evs ++ [.endpointDud t point u])
    | some (.refl idx r t u point) =>
      let dir' := vNorm (reflect dirCurr r.normal)
      let moved := vAdd point (vMul dir' STEP_EPS)
      raycastLoop rs tgt bounds fuel (pts ++ [moved]) moved dir' (some idx)
        (evs ++ [.reflector idx t u point])

/-- `_raycast_path(origin, direction, max_bounces)` of the source, with event
metadata always collected (the source's `return_events` flag only selects the
arity of the returned tuple). -/
def raycastPath (rs : List Reflector) (tgt : Target) (bounds : AABB)
    (origin direction : Vec) (maxBounces : ℕ) :
    List Vec × Bool × Reason × List Event :=
  raycastLoop rs tgt bounds (maxBounces + 1) [origin] origin (vNorm direction) none []

-- Level generation (raytrace.js lines 32-37 and 191-350).

/-- `difficultyParams(roundNum)` (lines 32-37); `Math.floor` of the real
quotient is floor division on integers. -/
def difficultyParams (roundNum : ℤ) : ℤ × ℤ × ℤ :=
  (min (1 + Int.fdiv (roundNum - 1) 2) 8,
   min roundNum 12,
   max 26 (90 - 6 * (roundNum - 1)))

/-- The mutable state of a `Level` object. -/
structure LevelState where
  round_num : ℕ
  reflectors : List Reflector
  target : Target
  emitter : Vec
  solution_points : List Vec
  solution_first_dir : Vec
  bounds : AABB
  num_reflections : ℕ
  num_noise : ℕ
  target_size : ℝ
  difficulty_score : ℝ
  aim_tolerance_deg : ℝ

/-- The seeded random source, abstracted as the stream of values produced by
successive calls of `rng.next()`; functions consuming randomness carry an
explicit read position into the stream. -/
abbrev RandStream := ℕ → ℝ

/-- `rng.uniform(a, b)` reading the stream at position `k`. -/
def uniformR (s : RandStream) (k : ℕ) (a b : ℝ) : ℝ := a + (b - a) * s k

/-- `_rand_point_in_safe_area()` (lines 210-214); consumes two stream values. -/
def randPointInSafeArea (s : RandStream) (k : ℕ) : Vec × ℕ :=
  ((uniformR s k SAFE_MARGIN (VIRTUAL_W - SAFE_MARGIN),
    uniformR s (k + 1) SAFE_MARGIN (VIRTUAL_H - SAFE_MARGIN)), k + 2)

/-- `_rand_direction()` (lines 215-218); consumes one stream value. -/
def randDirection (s : RandStream) (k : ℕ) : Vec × ℕ :=
  let ang := uniformR s k 0 (2 * Real.pi)
  ((Real.cos ang, Real.sin ang), k + 1)

/-- The retry loop of `_place_emitter_and_target()` (lines 219-231); the fuel-0
case is the fixed fallback placement after 200 failed attempts. -/
def placeLoop (s : RandStream) : ℕ → LevelState → ℕ → LevelState × ℕ
  | 0, st, k =>
    ({ st with emitter := (SAFE_MARGIN * 2, VIRTUAL_H / 2),
               target := Target.mk (VIRTUAL_W - SAFE_MARGIN * 2 - st.target_size)
                 (VIRTUAL_H / 2 - st.target_size / 2) st.target_size st.target_size }, k)
  | fuel + 1, st, k =>
    let e := (randPointInSafeArea s k).1
    let t := (randPointInSafeArea s (k + 2)).1
    if 300 < vDist e t then
      ({ st with emitter := e,
                 target := Target.mk (t.1 - st.target_size / 2) (t.2 - st.target_size / 2)
                   st.target_size st.target_size }, k + 4)
    else placeLoop s fuel st (k + 4)

/-- `_place_emitter_and_target()`. -/
def placeEmitterAndTarget (s : RandStream) (st : LevelState) (k : ℕ) : LevelState × ℕ :=
  placeLoop s 200 st k

/-- The inner 60-try loop of `_build_solution_path_and_reflectors` that finds
the next reverse-path point (lines 286-298); on failure the current direction
is jittered in place, so the possibly-jittered direction is returned with the
point. -/
def bsprPoint (s : RandStream) : ℕ → Vec → Vec → ℕ → Option (Vec × Vec) × ℕ
  | 0, _, _, k => (none, k)
  | fuel + 1, qPrev, d, k =>
    let dist := uniformR s k 180 320
    let qn := vAdd qPrev (vMul d dist)
    if SAFE_MARGIN < qn.1 ∧ qn.1 < VIRTUAL_W - SAFE_MARGIN ∧
       SAFE_MARGIN < qn.2 ∧ qn.2 < VIRTUAL_H - SAFE_MARGIN then
      (some (qn, d), k + 1)
    else
      let jit := uniformR s (k + 1) (-(Real.pi / 6)) (Real.pi / 6)
      bsprPoint s fuel qPrev (vNorm (vRot d jit)) (k + 2)

/-- The 80-try loop choosing a diverging outgoing direction (lines 306-311). -/
def bsprDir (s : RandStream) : ℕ → Vec → ℕ → Option Vec × ℕ
  | 0, _, k => (none, k)
  | fuel + 1, dPrev, k =>
    let cd := randDirection s k
    if |vDot cd.1 dPrev| < 0.92 then (some cd.1, cd.2)
    else bsprDir s fuel dPrev cd.2

/-- The main `for i = 1..N` loop of `_build_solution_path_and_reflectors`
(lines 284-314), building the reverse point chain `Q` and direction chain `D`.
`remaining` counts the iterations left (`i = N` is `remaining = 0` after the
point is found); `qAcc` accumulates `Q` reversed, `dPrev` is the last entry of
`D` (mutated in place by the point loop's jitters) and `dAcc` the earlier
entries reversed. -/
def bsprChain (s : RandStream) (emitter : Vec) :
    ℕ → Vec → Vec → List Vec → List Vec → ℕ → Option (List Vec × List Vec) × ℕ
  | 0, _, dPrev, qAcc, dAcc, k => (some (qAcc.reverse, (dPrev :: dAcc).reverse), k)
  | remaining + 1, qPrev, dPrev, qAcc, dAcc, k =>
    match bsprPoint s 60 qPrev dPrev k with
    | (none, k1) => (none, k1)
    | (some (qn, dCur), k1) =>
      if remaining = 0 then
        let dte := vNorm (vSub emitter qn)
        if vLen dte < 1e-6 then (none, k1)
        else (some ((qn :: qAcc).reverse, (dte :: dCur :: dAcc).reverse), k1)
      else
        let ch := bsprDir s 80 dCur k1
        let chosen := ch.1.getD (vPerp dCur)
        bsprChain s emitter remaining qn (vNorm chosen) (qn :: qAcc) (dCur :: dAcc) ch.2

/-- The shrink loop building one reflector segment around a bounce point
(lines 323-337): up to 10 in-bounds checks, each failure scaling the
half-length by 0.85; after the tenth failed check the segment is recomputed
once more without a check. -/
def bsprShrink (qi tvec : Vec) (L : ℝ) : ℕ → ℝ → Vec × Vec
  | 0, shrink =>
    (vSub qi (vMul tvec (L * 0.5 * shrink)), vAdd qi (vMul tvec (L * 0.5 * shrink)))
  | fuel + 1, shrink =>
    let a := vSub qi (vMul tvec (L * 0.5 * shrink))
    let b := vAdd qi (vMul tvec (L * 0.5 * shrink))
    if SAFE_MARGIN ≤ a.1 ∧ a.1 ≤ VIRTUAL_W - SAFE_MARGIN ∧
       SAFE_MARGIN ≤ a.2 ∧ a.2 ≤ VIRTUAL_H - SAFE_MARGIN ∧
       SAFE_MARGIN ≤ b.1 ∧ b.1 ≤ VIRTUAL_W - SAFE_MARGIN ∧
       SAFE_MARGIN ≤ b.2 ∧ b.2 ≤ VIRTUAL_H - SAFE_MARGIN then (a, b)
    else bsprShrink qi tvec L fuel (shrink * 0.85)

/-- The reflector-building loop of `_build_solution_path_and_reflectors`
(lines 316-339): one reflector per triple `(D[i-1], D[i], Q[i])`, failing if
incoming and outgoing directions coincide. -/
def bsprRefl (s : RandStream) : List (Vec × Vec × Vec) → ℕ → Option (List Reflector) × ℕ
  | [], k => (some [], k)
  | (din, dout, qi) :: rest, k =>
    let diff := vSub din dout
    if vLen diff < 1e-6 then (none, k)
    else
      let n := vNorm diff
      let tvec := vPerp n
      let L := uniformR s k 160 260
      let ab := bsprShrink qi tvec L 10 1
      match bsprRefl s rest (k + 1) with
      | (none, k1) => (none, k1)
      | (some others, k1) => (some (Reflector.mk ab.1 ab.2 false false :: others), k1)

/-- `_build_solution_path_and_reflectors()` (lines 269-350).  On failure the
level state is unchanged (the source only assigns `this.reflectors` and the
solution fields after every failure point has passed) but the stream position
still advances. -/
def buildSolutionPathAndReflectors (s : RandStream) (st : LevelState) (k : ℕ) :
    Bool × LevelState × ℕ :=
  let N := st.num_reflections
  let tc := st.target.center
  let base0 := vNorm (vSub st.emitter tc)
  let bk := if vLen base0 < 1e-6 then randDirection s k else (base0, k)
  let jitter := uniformR s bk.2 (-(Real.pi / 3)) (Real.pi / 3)
  let d0 := vNorm (vRot bk.1 jitter)
  match bsprChain s st.emitter N tc d0 [tc] [] (bk.2 + 1) with
  | (none, k1) => (false, st, k1)
  | (some (Q, D), k1) =>
    let triples := (D.zip ((D.drop 1).zip (Q.drop 1))).map (fun x => (x.1, x.2.1, x.2.2))
    match bsprRefl s triples k1 with
    | (none, k2) => (false, st, k2)
    | (some refls, k2) =>
      let forward := st.emitter :: (Q.drop 1).reverse ++ [tc]
      let firstDir :=
        if 2 ≤ forward.length then
          vNorm (vSub (forward.getD 1 (0, 0)) (forward.getD 0 (0, 0)))
        else vNorm (vSub tc st.emitter)
      (true, { st with reflectors := refls, solution_points := forward,
                       solution_first_dir := firstDir }, k2)

/-- `_validate_solution_path()` (lines 437-441). -/
def validateSolutionPath (st : LevelState) : Bool :=
  if vLen st.solution_first_dir < 1e-6 then false
  else (raycastPath st.reflectors st.target st.bounds st.emitter
    st.solution_first_dir MAX_BOUNCES).2.1

/-- `_segments_too_close([a1,b1],[a2,b2], threshold)` (lines 443-450). -/
def segmentsTooClose (a1 b1 a2 b2 : Vec) (threshold : ℝ) : Bool :=
  let mid1 : Vec := ((a1.1 + b1.1) / 2, (a1.2 + b1.2) / 2)
  let mid2 : Vec := ((a2.1 + b2.1) / 2, (a2.2 + b2.2) / 2)
  if vDist a1 a2 < threshold ∨ vDist a1 b2 < threshold ∨
     vDist b1 a2 < threshold ∨ vDist b1 b2 < threshold then true
  else if vDist mid1 mid2 < threshold then true
  else false

/-- The `while` loop of `_add_noise_reflectors_preserving_solution`
(lines 452-474); `fuel` is the remaining attempt budget (300 at the start)
and `added` the count of noise reflectors kept so far.  An addition that
breaks the solution is rolled back by popping the appended reflector. -/
def noiseLoop (s : RandStream) : ℕ → ℕ → LevelState → ℕ → LevelState × ℕ
  | 0, _, st, k => (st, k)
  | fuel + 1, added, st, k =>
    if st.num_noise ≤ added then (st, k)
    else
      let center := (randPointInSafeArea s k).1
      let ang := uniformR s (k + 2) 0 Real.pi
      let tvec : Vec := (Real.cos ang, Real.sin ang)
      let L := uniformR s (k + 3) 120 240
      let a := vSub center (vMul tvec (L * 0.5))
      let b := vAdd center (vMul tvec (L * 0.5))
      if st.reflectors.any (fun r => segmentsTooClose a b r.a r.b 22) then
        noiseLoop s fuel added st (k + 4)
      else
        let st' := { st with reflectors := st.reflectors ++ [Reflector.mk a b true false] }
        if validateSolutionPath st' then noiseLoop s fuel (added + 1) st' (k + 4)
        else noiseLoop s fuel added st (k + 4)

/-- `_add_noise_reflectors_preserving_solution()`; always reports success. -/
def addNoiseReflectorsPreservingSolution (s : RandStream) (st : LevelState) (k : ℕ) :
    Bool × LevelState × ℕ :=
  let r := noiseLoop s 300 0 st k
  (true, r.1, r.2)

/-- The classification produced by `_first_event_kind`. -/
inductive EventKind where
  | reflectorK
  | targetK
  | exitK
deriving DecidableEq

/-- The reflector loop of `_first_event_kind` (lines 480-487). -/
def fekFold (origin dirUnit : Vec) : List Reflector → Option ℝ × EventKind → Option ℝ × EventKind
  | [], acc => acc
  | r :: rest, acc =>
    let acc' :=
      match raySegmentIntersection origin dirUnit r.a r.b with
      | none => acc
      | some (t, _, _) =>
        match acc.1 with
        | none => (some t, EventKind.reflectorK)
        | some tn => if t < tn then (some t, EventKind.reflectorK) else acc
    fekFold origin dirUnit rest acc'

/-- `_first_event_kind(origin, direction)` (lines 476-493). -/
def firstEventKind (st : LevelState) (origin direction : Vec) : EventKind :=
  let dirUnit := vNorm direction
  let acc1 := fekFold origin dirUnit st.reflectors (none, EventKind.exitK)
  let acc2 :=
    match rayAABBIntersection origin dirUnit st.target.aabb with
    | none => acc1
    | some t =>
      match acc1.1 with
      | none => (some t, EventKind.targetK)
      | some tn => if t < tn then (some t, EventKind.targetK) else acc1
  match rayAABBExitDistanceFromInside origin dirUnit st.bounds with
  | none => acc2.2
  | some t =>
    match acc2.1 with
    | none => EventKind.exitK
    | some tn => if t < tn then EventKind.exitK else acc2.2

/-- Insertion into a sorted list, the building block for the ascending sort
`angles.sort((a,b) => a-b)` of the source. -/
def insertSorted (x : ℝ) : List ℝ → List ℝ
  | [] => [x]
  | y :: ys => if x ≤ y then x :: y :: ys else y :: insertSorted x ys

/-- Ascending sort of a list of reals. -/
def sortAsc (l : List ℝ) : List ℝ := l.foldr insertSorted []

/-- The gap-scanning loop of `_angles_to_target_arc` (lines 500-506). -/
def gapFold (angles : List ℝ) (n : ℕ) : List ℕ → ℝ × ℤ → ℝ × ℤ
  | [], best => best
  | i :: rest, best =>
    let a := angles.getD i 0
    let b := angles.getD ((i + 1) % n) 0 + (if i = n - 1 then 2 * Real.pi else 0)
    let gap := b - a
    gapFold angles n rest (if best.1 < gap then (gap, (i : ℤ)) else best)

/-- `_angles_to_target_arc()` (lines 495-511). -/
def anglesToTargetArc (st : LevelState) : ℝ × ℝ :=
  let x := st.target.x
  let y := st.target.y
  let w := st.target.w
  let h := st.target.h
  let corners : List Vec := [(x, y), (x + w, y), (x + w, y + h), (x, y + h)]
  let angles := sortAsc (corners.map (fun c => atan2R (c.2 - st.emitter.2) (c.1 - st.emitter.1)))
  let n := angles.length
  let best := gapFold angles n (List.range n) (-1, -1)
  let start := angles.getD ((best.2.toNat + 1) % n) 0
  let width := 2 * Real.pi - best.1
  (start, start + width)

/-- The sampling loop of `_has_direct_shot` (lines 517-522), scanning sample
index `i` upward while `fuel` iterations remain. -/
def hdsLoop (st : LevelState) (a0 width : ℝ) (samples : ℕ) : ℕ → ℕ → Option ℝ
  | _, 0 => none
  | i, fuel + 1 =>
    let ang := a0 + width * ((i : ℝ) / (samples : ℝ))
    if firstEventKind st st.emitter (Real.cos ang, Real.sin ang) = EventKind.targetK then
      some ang
    else hdsLoop st a0 width samples (i + 1) fuel

/-- `_has_direct_shot()` (lines 513-524): `some ang` models the source's
`[true, ang]` and `none` its `[false, null]`. -/
def hasDirectShot (st : LevelState) : Option ℝ :=
  let arc := anglesToTargetArc st
  let width := arc.2 - arc.1
  let samples := (max 21 ⌊width / (2 * Real.pi / 180 * 2)⌋).toNat
  hdsLoop st arc.1 width samples 0 (samples + 1)

/-- The fractional distances tried by `_place_blocker_for_angle`. -/
def pbfaFracs : List ℝ := [0.85, 0.78, 0.72, 0.66, 0.6, 0.55]

/-- The placement loop of `_place_blocker_for_angle` (lines 530-541). -/
def pbfaLoop (st : LevelState) (dirv : Vec) (tHit : ℝ) : List ℝ → Bool × LevelState
  | [] => (false, st)
  | frac :: rest =>
    let pos := vAdd st.emitter (vMul dirv (tHit * frac))
    let tvec := vPerp dirv
    let L : ℝ := 160
    let a := vSub pos (vMul tvec (L * 0.5))
    let b := vAdd pos (vMul tvec (L * 0.5))
    if ¬(SAFE_MARGIN ≤ a.1 ∧ a.1 ≤ VIRTUAL_W - SAFE_MARGIN ∧
         SAFE_MARGIN ≤ a.2 ∧ a.2 ≤ VIRTUAL_H - SAFE_MARGIN) then
      pbfaLoop st dirv tHit rest
    else if ¬(SAFE_MARGIN ≤ b.1 ∧ b.1 ≤ VIRTUAL_W - SAFE_MARGIN ∧
              SAFE_MARGIN ≤ b.2 ∧ b.2 ≤ VIRTUAL_H - SAFE_MARGIN) then
      pbfaLoop st dirv tHit rest
    else
      let st' := { st with reflectors := st.reflectors ++ [Reflector.mk a b true true] }
      if validateSolutionPath st' then (true, st') else pbfaLoop st dirv tHit rest

/-- `_place_blocker_for_angle(ang)` (lines 526-543); consumes no randomness. -/
def placeBlockerForAngle (st : LevelState) (ang : ℝ) : Bool × LevelState :=
  let dirv : Vec := (Real.cos ang, Real.sin ang)
  match rayAABBIntersection st.emitter dirv st.target.aabb with
  | none => (false, st)
  | some tHit => pbfaLoop st dirv tHit pbfaFracs

/-- The 30-iteration loop of `_ensure_no_direct_shot` (lines 545-569); the
fuel-0 case and the `break` on a vanished target intersection both fall
through to the final direct-shot re-check of lines 567-568. -/
def ensureLoop (s : RandStream) : ℕ → LevelState → ℕ → Bool × LevelState × ℕ
  | 0, st, k => ((hasDirectShot st).isNone, st, k)
  | fuel + 1, st, k =>
    match hasDirectShot st with
    | none => (true, st, k)
    | some ang =>
      let pb := placeBlockerForAngle st ang
      if pb.1 then ensureLoop s fuel pb.2 k
      else
        let dirv : Vec := (Real.cos ang, Real.sin ang)
        match rayAABBIntersection st.emitter dirv st.target.aabb with
        | none => ((hasDirectShot st).isNone, st, k)
        | some tHit =>
          let pos := vAdd st.emitter (vMul dirv (tHit * 0.9))
          let ang2 := ang + uniformR s k (-(Real.pi / 4)) (Real.pi / 4)
          let tvec : Vec := (Real.cos ang2, Real.sin ang2)
          let L : ℝ := 120
          let a := vSub pos (vMul tvec (L * 0.5))
          let b := vAdd pos (vMul tvec (L * 0.5))
          let st' := { st with reflectors := st.reflectors ++ [Reflector.mk a b true true] }
          if validateSolutionPath st' then ensureLoop s fuel st' (k + 1)
          else (false, st, k + 1)

/-- `_ensure_no_direct_shot()`. -/
def ensureNoDirectShot (s : RandStream) (st : LevelState) (k : ℕ) : Bool × LevelState × ℕ :=
  ensureLoop s 30 st k

/-- `_fallback_level()` (lines 252-267). -/
def fallbackLevel (s : RandStream) (st : LevelState) (k : ℕ) : LevelState × ℕ :=
  let st1 := { st with num_reflections := 1, num_noise := 0, target_size := 80 }
  let pl := placeEmitterAndTarget s st1 k
  let st2 := pl.1
  let tCenter := st2.target.center
  let mid : Vec := ((st2.emitter.1 + tCenter.1) / 2, (st2.emitter.2 + tCenter.2) / 2)
  let nd := randDirection s pl.2
  let tvec := vPerp nd.1
  let L : ℝ := 240
  let a := vSub mid (vMul tvec (L * 0.5))
  let b := vAdd mid (vMul tvec (L * 0.5))
  ({ st2 with reflectors := [Reflector.mk a b false false],
              solution_points := [st2.emitter, mid, tCenter],
              solution_first_dir := vNorm (vSub mid st2.emitter) }, nd.2)

-- Difficulty scoring (raytrace.js lines 572-769).

/-- `_hits_target(dir_unit)` (lines 624-627). -/
def hitsTarget (st : LevelState) (dirUnit : Vec) : Bool :=
  (raycastPath st.reflectors st.target st.bounds st.emitter dirUnit MAX_BOUNCES).2.1

/-- The probe used by `_aim_tolerance_bisect`: whether the solution direction
rotated by the given number of degrees still hits the target. -/
def bisectHits (st : LevelState) (baseDir : Vec) (deg : ℝ) : Bool :=
  hitsTarget st (vRot baseDir (Real.pi / 180 * deg))

/-- The geometric-expansion `while` loop of `boundary` in
`_aim_tolerance_bisect` (lines 630-637), at the source's only call
configuration `max_deg = 20`.  Starting from `hi = max_deg`, a failed probe
exits with `hi` unchanged, and a successful probe sets `hi` to
`20 * 1.25 = 25 > max_deg`, which exits immediately; so the loop always runs
at most one body. -/
def boundaryHi (hits : ℝ → Bool) (sign : ℝ) : ℝ :=
  if hits (sign * 20) then 20 * 1.25 else 20

/-- The 20-iteration bisection loop of `boundary` (lines 638-643), with the
early exit once the bracket is narrower than `eps_deg = 0.05`. -/
def bisectLoop (hits : ℝ → Bool) (sign : ℝ) : ℕ → ℝ → ℝ → ℝ
  | 0, lo, _ => lo
  | fuel + 1, lo, hi =>
    let mid := (lo + hi) / 2
    let lo' := if hits (sign * mid) then mid else lo
    let hi' := if hits (sign * mid) then hi else mid
    if hi' - lo' < 0.05 then lo' else bisectLoop hits sign fuel lo' hi'

/-- The `boundary(sign)` closure of `_aim_tolerance_bisect`. -/
def bisectBoundary (hits : ℝ → Bool) (sign : ℝ) : ℝ :=
  bisectLoop hits sign 20 0 (boundaryHi hits sign)

/-- `_aim_tolerance_bisect(base_dir)` (lines 629-647) at the source defaults
`max_deg = 20`, `eps_deg = 0.05`: the pair `(boundary(+1), boundary(-1))`. -/
def aimToleranceBisect (st : LevelState) (baseDir : Vec) : ℝ × ℝ :=
  (bisectBoundary (bisectHits st baseDir) 1, bisectBoundary (bisectHits st baseDir) (-1))

/-- The `(idx, u)` pairs of the reflector events of a cast, as extracted by
`ev.filter(e => e.type === "reflector").map(e => [e.idx, e.u])`. -/
def reflPairs (evs : List Event) : List (ℕ × ℝ) :=
  evs.filterMap (fun e =>
    match e with
    | .reflector idx _ u _ => some (idx, u)
    | _ => none)

/-- The per-bounce finite-difference slopes and corner margins computed by a
successful try of `_sensitivity_profile` (lines 663-673). -/
def sensCompute (baseBounce bp bm : List (ℕ × ℝ)) (deltaDeg : ℝ) : List ℝ × List ℝ :=
  let trip := baseBounce.zip (bp.zip bm)
  (trip.map (fun x => (x.2.1.2 - x.2.2.2) / (2 * (Real.pi / 180 * deltaDeg))),
   trip.map (fun x => max 0 (min x.1.2 (1 - x.1.2) - CORNER_TOL_FRAC)))

/-- The three-try halving loop of `_sensitivity_profile` (lines 652-675).  The
source compares bounce-index sequences via `join(",")` of the index lists;
this is equality of the index lists. -/
def sensLoop (st : LevelState) (baseDir : Vec) (baseBounce : List (ℕ × ℝ)) :
    ℕ → ℝ → Option (List ℝ × List ℝ)
  | 0, _ => none
  | fuel + 1, deltaDeg =>
    let dtheta := Real.pi / 180 * deltaDeg
    let rp := raycastPath st.reflectors st.target st.bounds st.emitter
      (vRot baseDir dtheta) MAX_BOUNCES
    let rm := raycastPath st.reflectors st.target st.bounds st.emitter
      (vRot baseDir (-dtheta)) MAX_BOUNCES
    if ¬(rp.2.1 ∧ rm.2.1) then sensLoop st baseDir baseBounce fuel (deltaDeg * 0.5)
    else
      let bp := reflPairs rp.2.2.2
      let bm := reflPairs rm.2.2.2
      if bp.length ≠ baseBounce.length ∨ bm.length ≠ baseBounce.length then
        sensLoop st baseDir baseBounce fuel (deltaDeg * 0.5)
      else if bp.map Prod.fst ≠ baseBounce.map Prod.fst ∨
              bm.map Prod.fst ≠ baseBounce.map Prod.fst then
        sensLoop st baseDir baseBounce fuel (deltaDeg * 0.5)
      else some (sensCompute baseBounce bp bm deltaDeg)

/-- `_sensitivity_profile(base_dir, ev_base)` at the source default
`delta_deg_start = 0.4` (lines 649-676). -/
def sensitivityProfile (st : LevelState) (baseDir : Vec) (evBase : List Event) :
    Option (List ℝ × List ℝ) :=
  let baseBounce := reflPairs evBase
  if baseBounce.length = 0 then none
  else sensLoop st baseDir baseBounce 3 0.4

/-- The nearest-reflector scan inside `_count_one_bounce_confusers`
(lines 699-706). -/
def cnFold (E dirIn : Vec) : List (ℕ × Reflector) → Option (ℝ × ℕ) → Option (ℝ × ℕ)
  | [], acc => acc
  | (j, r) :: rest, acc =>
    let acc' :=
      match raySegmentIntersection E dirIn r.a r.b with
      | none => acc
      | some (t2, _, _) =>
        match acc with
        | none => some (t2, j)
        | some c => if t2 < c.1 then some (t2, j) else acc
    cnFold E dirIn rest acc'

/-- The blocked-outgoing-ray scan inside `_count_one_bounce_confusers`
(lines 712-719). -/
def cbAny (P dirOut : Vec) (tTarget : ℝ) : List Reflector → Bool
  | [] => false
  | r :: rest =>
    match raySegmentIntersection P dirOut r.a r.b with
    | some (t3, _, _) => if t3 < tTarget then true else cbAny P dirOut tTarget rest
    | none => cbAny P dirOut tTarget rest

/-- Whether one reflector contributes to `_count_one_bounce_confusers`
(the body of the loop at lines 682-726), at the source default
`near_ext_px = 18`. -/
def confuserCountsIdx (st : LevelState) (idx : ℕ) (r : Reflector) : Bool :=
  let E := st.emitter
  let T := st.target.center
  let A := r.a
  let B := r.b
  let ABdir := r.direction
  if vLen ABdir < 1e-6 then false
  else
    let n := vPerp ABdir
    let dn := vDot (vSub E A) n
    let Emirror := vSub E (vMul n (2 * dn))
    match lineLineIntersection A B T Emirror with
    | none => false
    | some (tAB, _, P) =>
      let L := vDist A B
      if L < 1e-6 then false
      else if 0 ≤ tAB ∧ tAB ≤ 1 then
        let dirIn := vNorm (vSub P E)
        match cnFold E dirIn (enumFrom 0 st.reflectors) none with
        | none => true
        | some c =>
          if c.2 ≠ idx then true
          else
            let dirOut := vNorm (reflect dirIn r.normal)
            match rayAABBIntersection P dirOut st.target.aabb with
            | none => true
            | some tTarget => cbAny P dirOut tTarget st.reflectors
      else
        let dExt := if tAB < 0 then |tAB| * L else |tAB - 1| * L
        decide (dExt ≤ 18)

/-- `_count_one_bounce_confusers()` (lines 678-728). -/
def countOneBounceConfusers (st : LevelState) : ℕ :=
  ((enumFrom 0 st.reflectors).filter (fun x => confuserCountsIdx st x.1 x.2)).length

/-- `_clutter_density(base_dir, radius, half_angle_deg)` (lines 730-747). -/
def clutterDensity (st : LevelState) (baseDir : Vec) (radius halfAngleDeg : ℝ) : ℝ :=
  let E := st.emitter
  let cosThresh := Real.cos (Real.pi / 180 * halfAngleDeg)
  st.reflectors.foldl (fun score r =>
    let mid : Vec := ((r.a.1 + r.b.1) * 0.5, (r.a.2 + r.b.2) * 0.5)
    let vEm := vSub mid E
    let d := vLen vEm
    if radius < d ∨ d < 1e-6 then score
    else
      let vEmU := vNorm vEm
      let cosang := vDot vEmU baseDir
      if cosang < cosThresh then score
      else
        let w := (1 - d / radius) * ((cosang - cosThresh) / (1 - cosThresh))
        let segLen := vDist r.a r.b
        score + w * (0.5 + 0.5 * min 1 (segLen / 200))) 0

/-- `_similar_orientation_near_first_segment(base_dir, ev_base)`
(lines 749-769); `base_dir` is unused by the source body as well. -/
def similarOrientationNearFirstSegment (st : LevelState) (baseDir : Vec)
    (evBase : List Event) : ℝ :=
  let firstRefl := evBase.find? (fun e =>
    match e with
    | .reflector _ _ _ _ => true
    | _ => false)
  match firstRefl with
  | some (.reflector idxFirst _ _ point) =>
    let rSol := st.reflectors.getD idxFirst (Reflector.mk (0, 0) (0, 0) false false)
    let solAngle := angleOf rSol.direction
    let E := st.emitter
    (enumFrom 0 st.reflectors).foldl (fun count x =>
      let r := x.2
      if ¬r.is_noise ∧ x.1 = idxFirst then count
      else
        let aR := angleOf r.direction
        let diff := min (angleDiff aR solAngle) (angleDiff (aR + Real.pi) solAngle)
        if Real.pi / 180 * 12 < diff then count
        else
          let d := pointToLineDistance ((r.a.1 + r.b.1) * 0.5, (r.a.2 + r.b.2) * 0.5) E point
          count + Real.exp (-(d / 150))) 0
  | _ => 0

/-- The path length reduction of line 578: the sum of consecutive distances
along the cast points. -/
def pathLength (pts : List Vec) : ℝ :=
  (pts.zip (pts.drop 1)).foldl (fun acc p => acc + vDist p.1 p.2) 0

/-- `_compute_difficulty_score()` (lines 572-622).  Only the fields
`difficulty_score` and `aim_tolerance_deg` are written. -/
def computeDifficultyScore (st : LevelState) : LevelState :=
  let baseDir := st.solution_first_dir
  if vLen baseDir < 1e-6 then { st with difficulty_score := 50, aim_tolerance_deg := 0 }
  else
    let rc := raycastPath st.reflectors st.target st.bounds st.emitter baseDir MAX_BOUNCES
    if ¬rc.2.1 then { st with difficulty_score := 50, aim_tolerance_deg := 0 }
    else
      let pts := rc.1
      let evBase := rc.2.2.2
      let pathLen := pathLength pts
      let N := (reflPairs evBase).length
      let tol := aimToleranceBisect st baseDir
      let sigmaDeg := ANGLE_NOISE_SIGMA_DEG
      let Pang := clampR (PhiAS (tol.1 / sigmaDeg) - PhiAS (-(tol.2 / sigmaDeg))) 1e-4 1
      let Pchain :=
        match sensitivityProfile st baseDir evBase with
        | none => Pang
        | some (duList, marginsList) =>
          let sigmaThetaRad := Real.pi / 180 * sigmaDeg
          let Plist := (duList.zip marginsList).map (fun x =>
            let sigmaU := |x.1| * sigmaThetaRad
            if sigmaU < 1e-6 then 0.999
            else clampR (2 * PhiAS (x.2 / sigmaU) - 1) 1e-4 0.999)
          clampR (Plist.foldl (fun a b => a * b) 1) 1e-6 1
      let confusers := (countOneBounceConfusers st : ℝ)
      let clutter := clutterDensity st baseDir 220 30
      let similar := similarOrientationNearFirstSegment st baseDir evBase
      let Dprob := 1 / Real.sqrt (max (Pang * Pchain) 1e-6)
      let bounceFactor := 1 + 0.35 * (N : ℝ) + 0.06 * ((N : ℝ) * (N : ℝ))
      let targetFactor := (90 / max 20 st.target.w) ^ (0.7 : ℝ)
      let pathFactor := 1 + pathLen / 2200
      let confuserFactor := 1 + 0.20 * Real.arctan (confusers / 3)
      let clutterFactor := 1 + 0.18 * Real.arctan (clutter / 3)
      let similarFactor := 1 + 0.12 * Real.arctan (similar / 2)
      let score := BASE_SCORE_SCALE * Dprob * bounceFactor * targetFactor * pathFactor *
        confuserFactor * clutterFactor * similarFactor
      { st with difficulty_score := clampR score 20 6000,
                aim_tolerance_deg := tol.1 + tol.2 }

-- The generation driver (raytrace.js lines 191-250).

/-- The 120-attempt loop of `_build_level()` (lines 234-245).  The first
component is `some` of the finished level when an attempt returns through the
success path; otherwise the level state and stream position reached after the
last attempt are carried out for the fallback. -/
def attemptsLoop (s : RandStream) : ℕ → LevelState → ℕ → Option LevelState × LevelState × ℕ
  | 0, st, k => (none, st, k)
  | fuel + 1, st, k =>
    let st1 := { st with reflectors := [], solution_points := [] }
    let pl := placeEmitterAndTarget s st1 k
    let bs := buildSolutionPathAndReflectors s pl.1 pl.2
    if ¬bs.1 then attemptsLoop s fuel bs.2.1 bs.2.2
    else if ¬validateSolutionPath bs.2.1 then attemptsLoop s fuel bs.2.1 bs.2.2
    else
      let an := addNoiseReflectorsPreservingSolution s bs.2.1 bs.2.2
      if ¬an.1 then attemptsLoop s fuel an.2.1 an.2.2
      else
        let en := ensureNoDirectShot s an.2.1 an.2.2
        if ¬en.1 then attemptsLoop s fuel en.2.1 en.2.2
        else (some (computeDifficultyScore en.2.1), en.2.1, en.2.2)

/-- `_build_level()` (lines 233-250): the attempt loop, then on exhaustion the
fallback level with direct-shot suppression (whose result is discarded) and
difficulty scoring. -/
def buildLevel (s : RandStream) (st : LevelState) (k : ℕ) : LevelState :=
  match attemptsLoop s 120 st k with
  | (some st', _, _) => st'
  | (none, stl, kl) =>
    let fb := fallbackLevel s stl kl
    let en := ensureNoDirectShot s fb.1 fb.2
    computeDifficultyScore en.2.1

/-- The field initialisation of the `Level` constructor (lines 192-207).  The
source initialises `this.target` to `null`; the placeholder rectangle is
always overwritten by placement before any read. -/
def levelInit (roundNum : ℕ) : LevelState :=
  let dp := difficultyParams (roundNum : ℤ)
  { round_num := roundNum
    reflectors := []
    target := Target.mk 0 0 0 0
    emitter := (0, 0)
    solution_points := []
    solution_first_dir := (0, 0)
    bounds := (0, 0, VIRTUAL_W, VIRTUAL_H)
    num_reflections := dp.1.toNat
    num_noise := dp.2.1.toNat
    target_size := (dp.2.2 : ℝ)
    difficulty_score := 100
    aim_tolerance_deg := 0 }

/-- `new Level(roundNum, rng)` with the rng stream read from position `k`. -/
def levelNew (roundNum : ℕ) (s : RandStream) (k : ℕ) : LevelState :=
  buildLevel s (levelInit roundNum) k

-- The seeded RNG (raytrace.js lines 50-64) and the game scoring step.

/-- One `xorshift32` state transition of the `RNG` class. -/
def xorshift32 (x : ℕ) : ℕ :=
  let x1 := (x ^^^ (x <<< 13)) % 2 ^ 32
  let x2 := x1 ^^^ (x1 >>> 17)
  (x2 ^^^ (x2 <<< 5)) % 2 ^ 32

/-- The stream of `rng.next()` outputs of an `RNG` seeded with `seed`:
the `n`-th call advances the state `n + 1` times and divides by
`0xFFFFFFFF`. -/
def rngStream (seed : ℕ) : RandStream := fun n =>
  ((xorshift32^[n + 1] (seed % 2 ^ 32) : ℕ) : ℝ) / 4294967295

/-- `new Level(roundNum, rng)` for a freshly seeded `RNG`. -/
def levelNewSeeded (roundNum : ℕ) (seed : ℕ) : LevelState :=
  levelNew roundNum (rngStream seed) 0

/-- The game states of the `Game` class. -/
inductive GState where
  | menu
  | playing
  | roundComplete
  | gameOver
deriving DecidableEq

/-- The slice of `Game` state read and written by `_finishBeam`
(`difficulty_score` standing for `this.level.difficulty_score`). -/
structure GameSt where
  state : GState
  score : ℤ
  timer : ℝ
  difficulty_score : ℝ
  beam_active : Bool
  beam_result : Option Reason
  points_awarded : ℤ
  round_message_timer : ℝ

/-- `Game._finishBeam()` (raytrace.js lines 971-982).  `Math.round` is
`⌊x + 1/2⌋`, Mathlib's `round`. -/
def finishBeam (g : GameSt) : GameSt :=
  let g1 := { g with beam_active := false }
  if g.beam_result = some Reason.hit then
    let timeMult := 1 + TIME_BONUS_FACTOR * (max 0 g.timer / ROUND_TIME)
    let points := round (g.difficulty_score * timeMult)
    { g1 with score := g.score + points, points_awarded := points,
              round_message_timer := 1, state := GState.roundComplete }
  else g1

-- Concrete instances used by counterexamples and witnesses.

/-- A level state whose target box coincides with the play-field bounds and
whose emitter sits at the centre: every unit direction hits the target. -/
def bigTargetLevel : LevelState :=
  { levelInit 1 with emitter := (500, 500), target := Target.mk 0 0 1000 1000 }

/-- A level state with no reflectors and a target box to the right of the
emitter. -/
def openLevel : LevelState :=
  { levelInit 1 with emitter := (500, 500), target := Target.mk 800 460 80 80 }

/-- A reflector whose lower endpoint lies barely above the horizontal ray
from `(100, 500)`, so that ray hits it at `u = 1/120 < CORNER_TOL_FRAC`. -/
def dudProbeReflector : Reflector := Reflector.mk (400, 502) (400, 262) false false

/-- The constant random stream with every draw `1/2`.  Under it every
placement try picks coincident emitter/target points, every generation
attempt aborts with coincident incoming/outgoing directions, and the fallback
draws the direction `(cos π, sin π) = (-1, 0)`. -/
def constHalfStream : RandStream := fun _ => (1 : ℝ) / 2

/-- The stream that draws `1/2` everywhere except at position 97040 — the
position of the fallback's `_rand_direction()` call after 120 failed attempts
(802 draws each) and the fallback placement (800 draws) — where it draws
`1/4`, giving the direction `(cos (π/2), sin (π/2)) = (0, 1)`. -/
def fallbackProbeStream : RandStream := fun k =>
  if k = 97040 then (1 : ℝ) / 4 else (1 : ℝ) / 2

/-- The level state left behind by one failed generation attempt under a
stream of `1/2` draws: reflectors and solution points cleared, emitter and
target at the placement-fallback positions for `target_size = 90`. -/
def attemptResultState (st : LevelState) : LevelState :=
  { st with reflectors := [], solution_points := [],
            emitter := (120, 500), target := Target.mk 790 455 90 90 }

/-- The fallback level produced from `levelInit 1` under the all-halves
stream: a single vertical reflector through the midpoint `(480, 500)` of the
emitter `(120, 500)` and target centre `(840, 500)`. -/
def fallbackHalfState : LevelState :=
  { levelInit 1 with
      num_reflections := 1, num_noise := 0, target_size := 80,
      emitter := (120, 500), target := Target.mk 800 460 80 80,
      reflectors := [Reflector.mk (480, 620) (480, 380) false false],
      solution_points := [(120, 500), (480, 500), (840, 500)],
      solution_first_dir := (1, 0) }

/-- The direction drawn by the fallback's `_rand_direction()` call when the
stream is read at position `k`: `uniform(0, 2*pi)` gives angle `2*pi*s(k)`. -/
def fallbackDir (s : RandStream) (k : ℕ) : Vec :=
  (Real.cos (2 * Real.pi * s k), Real.sin (2 * Real.pi * s k))

-- Helper lemmas.

theorem head?_append_singleton {α : Type} (l : List α) (x : α) (h : l ≠ []) :
    (l ++ [x]).head? = l.head? := by
  cases l with
  | nil => exact absurd rfl h
  | cons a t => rfl

theorem raycastLoop_hit_iff (rs : List Reflector) (tgt : Target) (bounds : AABB) :
    ∀ (fuel : ℕ) (pts : List Vec) (cur dirCurr : Vec) (lastR : Option ℕ) (evs : List Event),
      ((raycastLoop rs tgt bounds fuel pts cur dirCurr lastR evs).2.1 = true ↔
        (raycastLoop rs tgt bounds fuel pts cur dirCurr lastR evs).2.2.1 = Reason.hit) := by
  intro fuel
  induction fuel with
  | zero =>
    intro pts cur d l evs
    simp [raycastLoop]
  | succ n ih =>
    intro pts cur d l evs
    rw [raycastLoop]
    cases h : nearestCandidate rs tgt bounds l cur d with
    | none => simp
    | some c =>
      cases c with
      | refl idx r t u p => exact ih _ _ _ _ _
      | dud t u p => simp
      | target t p => simp
      | exitC t p => simp

theorem length_append_one {α : Type} (l : List α) (x : α) : (l ++ [x]).length = l.length + 1 := by
  simp

theorem raycastLoop_points_spec (rs : List Reflector) (tgt : Target) (bounds : AABB) :
    ∀ (fuel : ℕ) (pts : List Vec) (cur d : Vec) (l : Option ℕ) (evs : List Event),
      pts ≠ [] →
      ((raycastLoop rs tgt bounds fuel pts cur d l evs).1.head? = pts.head? ∧
        pts.length ≤ (raycastLoop rs tgt bounds fuel pts cur d l evs).1.length ∧
        (raycastLoop rs tgt bounds fuel pts cur d l evs).1.length ≤ pts.length + fuel ∧
        (1 ≤ fuel → pts.length + 1 ≤ (raycastLoop rs tgt bounds fuel pts cur d l evs).1.length)) := by
  intro fuel
  induction fuel with
  | zero =>
    intro pts cur d l evs hne
    exact ⟨rfl, le_refl _, Nat.le_add_right _ _, fun h => absurd h (by omega)⟩
  | succ n ih =>
    intro pts cur d l evs hne
    rw [raycastLoop]
    cases h : nearestCandidate rs tgt bounds l cur d with
    | none =>
      dsimp only
      refine ⟨head?_append_singleton _ _ hne, ?_, ?_, fun _ => ?_⟩ <;>
        rw [length_append_one] <;> omega
    | some c =>
      cases c with
      | refl idx r t u p =>
        dsimp only
        have hne' : pts ++ [vAdd p (vMul (vNorm (reflect d r.normal)) STEP_EPS)] ≠ [] := by simp
        have h2 := ih (pts ++ [vAdd p (vMul (vNorm (reflect d r.normal)) STEP_EPS)])
          (vAdd p (vMul (vNorm (reflect d r.normal)) STEP_EPS))
          (vNorm (reflect d r.normal)) (some idx)
          (evs ++ [Event.reflector idx t u p]) hne'
        refine ⟨?_, ?_, ?_, fun _ => ?_⟩
        · rw [h2.1, head?_append_singleton _ _ hne]
        · have h3 := h2.2.1
          rw [length_append_one] at h3
          omega
        · have h3 := h2.2.2.1
          rw [length_append_one] at h3
          omega
        · have h3 := h2.2.1
          rw [length_append_one] at h3
          omega
      | dud t u p =>
        dsimp only
        refine ⟨head?_append_singleton _ _ hne, ?_, ?_, fun _ => ?_⟩ <;>
          rw [length_append_one] <;> omega
      | target t p =>
        dsimp only
        refine ⟨head?_append_singleton _ _ hne, ?_, ?_, fun _ => ?_⟩ <;>
          rw [length_append_one] <;> omega
      | exitC t p =>
        dsimp only
        refine ⟨head?_append_singleton _ _ hne, ?_, ?_, fun _ => ?_⟩ <;>
          rw [length_append_one] <;> omega

theorem vLen_horizontal (x : ℝ) : vLen (x, 0) = |x| := by
  unfold vLen
  rw [show (x, (0 : ℝ)).1 = x from rfl, show (x, (0 : ℝ)).2 = 0 from rfl]
  rw [show x ^ 2 + (0 : ℝ) ^ 2 = x ^ 2 by ring, Real.sqrt_sq_eq_abs]

theorem vLen_vertical (y : ℝ) : vLen (0, y) = |y| := by
  unfold vLen
  rw [show ((0 : ℝ), y).1 = 0 from rfl, show ((0 : ℝ), y).2 = y from rfl]
  rw [show (0 : ℝ) ^ 2 + y ^ 2 = y ^ 2 by ring, Real.sqrt_sq_eq_abs]

theorem vNorm_pos_x (x : ℝ) (h : 1e-12 < x) : vNorm (x, 0) = (1, 0) := by
  have hx : (0 : ℝ) < x := lt_trans (by norm_num) h
  unfold vNorm
  rw [vLen_horizontal, abs_of_pos hx, if_neg (not_le.mpr h)]
  rw [show (x, (0 : ℝ)).1 = x from rfl, show (x, (0 : ℝ)).2 = 0 from rfl]
  rw [div_self (ne_of_gt hx), zero_div]

theorem vNorm_neg_x (x : ℝ) (h : x < -1e-12) : vNorm (x, 0) = (-1, 0) := by
  have hx : x < 0 := lt_trans h (by norm_num)
  unfold vNorm
  rw [vLen_horizontal, abs_of_neg hx, if_neg (not_le.mpr (by linarith))]
  rw [show (x, (0 : ℝ)).1 = x from rfl, show (x, (0 : ℝ)).2 = 0 from rfl]
  rw [div_neg, div_self (ne_of_lt hx), zero_div]

theorem vNorm_tiny (v : Vec) (h : vLen v ≤ 1e-12) : vNorm v = (0, 0) := by
  unfold vNorm
  rw [if_pos h]

-- Single-step evaluation lemmas for the cast loop.

theorem raycastLoop_step_none (rs : List Reflector) (tgt : Target) (bounds : AABB)
    (fuel : ℕ) (pts : List Vec) (cur dir : Vec) (lastR : Option ℕ) (evs : List Event)
    (h : nearestCandidate rs tgt bounds lastR cur dir = none) :
    raycastLoop rs tgt bounds (fuel + 1) pts cur dir lastR evs =
      (pts ++ [vAdd cur (vMul dir 9999)], false, Reason.miss, evs) := by
  rw [raycastLoop, h]

theorem raycastLoop_step_target (rs : List Reflector) (tgt : Target) (bounds : AABB)
    (fuel : ℕ) (pts : List Vec) (cur dir : Vec) (lastR : Option ℕ) (evs : List Event)
    (t : ℝ) (p : Vec)
    (h : nearestCandidate rs tgt bounds lastR cur dir = some (Cand.target t p)) :
    raycastLoop rs tgt bounds (fuel + 1) pts cur dir lastR evs =
      (pts ++ [p], true, Reason.hit, evs ++ [Event.target t p]) := by
  rw [raycastLoop, h]

theorem raycastLoop_step_exit (rs : List Reflector) (tgt : Target) (bounds : AABB)
    (fuel : ℕ) (pts : List Vec) (cur dir : Vec) (lastR : Option ℕ) (evs : List Event)
    (t : ℝ) (p : Vec)
    (h : nearestCandidate rs tgt bounds lastR cur dir = some (Cand.exitC t p)) :
    raycastLoop rs tgt bounds (fuel + 1) pts cur dir lastR evs =
      (pts ++ [p], false, Reason.miss, evs ++ [Event.exitEv t p]) := by
  rw [raycastLoop, h]

theorem raycastLoop_step_dud (rs : List Reflector) (tgt : Target) (bounds : AABB)
    (fuel : ℕ) (pts : List Vec) (cur dir : Vec) (lastR : Option ℕ) (evs : List Event)
    (t u : ℝ) (p : Vec)
    (h : nearestCandidate rs tgt bounds lastR cur dir = some (Cand.dud t u p)) :
    raycastLoop rs tgt bounds (fuel + 1) pts cur dir lastR evs =
      (pts ++ [p], false, Reason.dud, evs ++ [Event.endpointDud t p u]) := by
  rw [raycastLoop, h]

theorem raycastLoop_step_refl (rs : List Reflector) (tgt : Target) (bounds : AABB)
    (fuel : ℕ) (pts : List Vec) (cur dir : Vec) (lastR : Option ℕ) (evs : List Event)
    (idx : ℕ) (r : Reflector) (t u : ℝ) (p : Vec)
    (h : nearestCandidate rs tgt bounds lastR cur dir = some (Cand.refl idx r t u p)) :
    raycastLoop rs tgt bounds (fuel + 1) pts cur dir lastR evs =
      raycastLoop rs tgt bounds fuel
        (pts ++ [vAdd p (vMul (vNorm (reflect dir r.normal)) STEP_EPS)])
        (vAdd p (vMul (vNorm (reflect dir r.normal)) STEP_EPS))
        (vNorm (reflect dir r.normal)) (some idx) (evs ++ [Event.reflector idx t u p]) := by
  rw [raycastLoop, h]

theorem vLen_vMul (a : Vec) (s : ℝ) : vLen (vMul a s) = |s| * vLen a := by
  unfold vLen vMul
  rw [show (a.1 * s) ^ 2 + (a.2 * s) ^ 2 = s ^ 2 * (a.1 ^ 2 + a.2 ^ 2) by ring]
  rw [Real.sqrt_mul (sq_nonneg s), Real.sqrt_sq_eq_abs]

theorem vNorm_vMul (d : Vec) (k : ℝ) (hk : 0 < k) (hd : 1e-12 < vLen d)
    (hkd : 1e-12 < vLen (vMul d k)) : vNorm (vMul d k) = vNorm d := by
  have hL : 0 < vLen d := lt_trans (by norm_num) hd
  unfold vNorm
  rw [if_neg (not_le.mpr hkd), if_neg (not_le.mpr hd), vLen_vMul, abs_of_pos hk]
  have hk0 : k ≠ 0 := ne_of_gt hk
  have hL0 : vLen d ≠ 0 := ne_of_gt hL
  have e1 : (vMul d k).1 = d.1 * k := rfl
  have e2 : (vMul d k).2 = d.2 * k := rfl
  rw [Prod.ext_iff]
  constructor
  · rw [e1]
    field_simp
    ring
  · rw [e2]
    field_simp
    ring

-- Evaluation of the open scene (no reflectors, target box to the right).

theorem openLevel_target_inter :
    rayAABBIntersection (500, 500) (1, 0) (Target.mk 800 460 80 80).aabb = some 300 := by
  unfold rayAABBIntersection Target.aabb slabLoHi finishIntersection RAY_EPS
  norm_num [min_def, max_def]

theorem openLevel_bounds_exit :
    rayAABBExitDistanceFromInside (500, 500) (1, 0) (0, 0, 1000, 1000) = some 500 := by
  unfold rayAABBExitDistanceFromInside exitFinish RAY_EPS
  norm_num [min_def, max_def]

theorem openLevel_nearest :
    nearestCandidate [] (Target.mk 800 460 80 80) (0, 0, 1000, 1000) none (500, 500) (1, 0)
      = some (Cand.target 300 (800, 500)) := by
  unfold nearestCandidate enumFrom foldRefl
  rw [openLevel_target_inter, openLevel_bounds_exit]
  norm_num [Cand.tOf, vAdd, vMul]

theorem openLevel_nearest_zero :
    nearestCandidate [] (Target.mk 800 460 80 80) (0, 0, 1000, 1000) none (500, 500) (0, 0)
      = none := by
  unfold nearestCandidate enumFrom foldRefl rayAABBIntersection rayAABBExitDistanceFromInside
  norm_num

/-- C8 (amended): the ray-caster normalizes its direction, so casting with
`k * d` agrees with casting with `d` for every positive `k`, provided both `d`
and `k * d` exceed the `1e-12` normalization threshold in length; below that
threshold the normalization clamps the direction to zero and the results can
differ. -/
theorem raycast_scale_invariance_amended (rs : List Reflector) (tgt : Target) (bounds : AABB)
    (origin : Vec) (d : Vec) (k : ℝ) (maxBounces : ℕ) (hk : 0 < k)
    (hd : 1e-12 < vLen d) (hkd : 1e-12 < vLen (vMul d k)) :
    raycastPath rs tgt bounds origin (vMul d k) maxBounces =
      raycastPath rs tgt bounds origin d maxBounces := by
  unfold raycastPath
  rw [vNorm_vMul d k hk hd hkd]

theorem raycast_scale_invariance_amended_witness :
    (0 : ℝ) < 3 ∧ (1e-12 : ℝ) < vLen (2, 0) ∧ (1e-12 : ℝ) < vLen (vMul (2, 0) 3) ∧
    raycastPath openLevel.reflectors openLevel.target openLevel.bounds openLevel.emitter
        (vMul (2, 0) 3) MAX_BOUNCES =
      raycastPath openLevel.reflectors openLevel.target openLevel.bounds openLevel.emitter
        (2, 0) MAX_BOUNCES := by
  have h1 : (1e-12 : ℝ) < vLen ((2 : ℝ), (0 : ℝ)) := by
    rw [vLen_horizontal]
    norm_num
  have h2 : (1e-12 : ℝ) < vLen (vMul ((2 : ℝ), (0 : ℝ)) 3) := by
    rw [show vMul ((2 : ℝ), (0 : ℝ)) 3 = ((6 : ℝ), (0 : ℝ)) by norm_num [vMul], vLen_horizontal]
    norm_num
  exact ⟨by norm_num, h1, h2,
    raycast_scale_invariance_amended _ _ _ _ _ _ _ (by norm_num) h1 h2⟩

/-- C8 (counterexample): for the nonzero direction `(1e-13, 0)` and the
positive scalar `1e13`, casting with the scaled direction hits the target
while casting with the original direction misses — the original, being shorter
than the `1e-12` normalization threshold, is clamped to the zero vector. -/
theorem raycast_scale_invariance_counterexample :
    (0 : ℝ) < 1e13 ∧ ((1e-13 : ℝ), (0 : ℝ)) ≠ ((0 : ℝ), (0 : ℝ)) ∧
    (raycastPath openLevel.reflectors openLevel.target openLevel.bounds openLevel.emitter
        (vMul ((1e-13 : ℝ), (0 : ℝ)) 1e13) MAX_BOUNCES).2.1 = true ∧
    (raycastPath openLevel.reflectors openLevel.target openLevel.bounds openLevel.emitter
        ((1e-13 : ℝ), (0 : ℝ)) MAX_BOUNCES).2.1 = false := by
  refine ⟨by norm_num, by norm_num [Prod.ext_iff], ?_, ?_⟩
  · show (raycastPath [] (Target.mk 800 460 80 80) (0, 0, 1000, 1000) (500, 500)
      (vMul ((1e-13 : ℝ), (0 : ℝ)) 1e13) MAX_BOUNCES).2.1 = true
    rw [show vMul ((1e-13 : ℝ), (0 : ℝ)) 1e13 = ((1 : ℝ), (0 : ℝ)) by norm_num [vMul]]
    unfold raycastPath
    rw [vNorm_pos_x 1 (by norm_num)]
    rw [raycastLoop_step_target _ _ _ MAX_BOUNCES _ _ _ _ _ _ _ openLevel_nearest]
  · show (raycastPath [] (Target.mk 800 460 80 80) (0, 0, 1000, 1000) (500, 500)
      ((1e-13 : ℝ), (0 : ℝ)) MAX_BOUNCES).2.1 = false
    unfold raycastPath
    rw [vNorm_tiny _ (by
      rw [vLen_horizontal, abs_of_pos (by norm_num : (0 : ℝ) < 1e-13)]
      norm_num)]
    rw [raycastLoop_step_none _ _ _ MAX_BOUNCES _ _ _ _ _ openLevel_nearest_zero]

theorem foldReflStep_far (p dir : Vec) (idx : ℕ) (r : Reflector) (acc : Option Cand)
    (t : ℝ)
    (hfar : ∀ (t2 u2 : ℝ) (p2 : Vec),
      raySegmentIntersection p dir r.a r.b = some (t2, u2, p2) → t < t2)
    (hacc : acc = none ∨ ∃ c, acc = some c ∧ t < c.tOf) :
    foldReflStep none p dir idx r acc = none ∨
      ∃ c, foldReflStep none p dir idx r acc = some c ∧ t < c.tOf := by
  unfold foldReflStep
  rw [if_neg (by simp : ¬(none : Option ℕ) = some idx)]
  cases hi : raySegmentIntersection p dir r.a r.b with
  | none => exact hacc
  | some v =>
    obtain ⟨t2, u2, p2⟩ := v
    have ht2 : t < t2 := hfar t2 u2 p2 hi
    dsimp only
    by_cases hb : u2 < CORNER_TOL_FRAC ∨ 1 - CORNER_TOL_FRAC < u2
    · rw [if_pos hb]
      rcases hacc with h0 | ⟨c, hc, htc⟩
      · rw [h0]
        exact Or.inr ⟨_, rfl, ht2⟩
      · rw [hc]
        dsimp only
        by_cases hcmp : t2 < c.tOf
        · rw [if_pos hcmp]
          exact Or.inr ⟨_, rfl, ht2⟩
        · rw [if_neg hcmp]
          exact Or.inr ⟨c, rfl, htc⟩
    · rw [if_neg hb]
      rcases hacc with h0 | ⟨c, hc, htc⟩
      · rw [h0]
        exact Or.inr ⟨_, rfl, ht2⟩
      · rw [hc]
        dsimp only
        by_cases hcmp : t2 < c.tOf
        · rw [if_pos hcmp]
          exact Or.inr ⟨_, rfl, ht2⟩
        · rw [if_neg hcmp]
          exact Or.inr ⟨c, rfl, htc⟩

theorem foldReflStep_dud_keep (p dir : Vec) (idx : ℕ) (r : Reflector) (t u : ℝ) (q : Vec)
    (hfar : ∀ (t2 u2 : ℝ) (p2 : Vec),
      raySegmentIntersection p dir r.a r.b = some (t2, u2, p2) → t < t2) :
    foldReflStep none p dir idx r (some (Cand.dud t u q)) = some (Cand.dud t u q) := by
  unfold foldReflStep
  rw [if_neg (by simp : ¬(none : Option ℕ) = some idx)]
  cases hi : raySegmentIntersection p dir r.a r.b with
  | none => rfl
  | some v =>
    obtain ⟨t2, u2, p2⟩ := v
    have ht2 : t < t2 := hfar t2 u2 p2 hi
    dsimp only [Cand.tOf]
    by_cases hb : u2 < CORNER_TOL_FRAC ∨ 1 - CORNER_TOL_FRAC < u2
    · rw [if_pos hb, if_neg (not_lt.mpr (le_of_lt ht2))]
    · rw [if_neg hb, if_neg (not_lt.mpr (le_of_lt ht2))]

theorem foldReflStep_take_dud (p dir : Vec) (idx : ℕ) (r : Reflector) (acc : Option Cand)
    (t u : ℝ) (q : Vec)
    (hint : raySegmentIntersection p dir r.a r.b = some (t, u, q))
    (hband : u < CORNER_TOL_FRAC ∨ 1 - CORNER_TOL_FRAC < u)
    (hacc : acc = none ∨ ∃ c, acc = some c ∧ t < c.tOf) :
    foldReflStep none p dir idx r acc = some (Cand.dud t u q) := by
  unfold foldReflStep
  rw [if_neg (by simp : ¬(none : Option ℕ) = some idx), hint]
  dsimp only
  rw [if_pos hband]
  rcases hacc with h0 | ⟨c, hc, htc⟩
  · rw [h0]
  · rw [hc]
    dsimp only
    rw [if_pos htc]

theorem foldRefl_after_dud (p dir : Vec) (t u : ℝ) (q : Vec) :
    ∀ (l : List Reflector) (n : ℕ),
      (∀ (j : ℕ) (rj : Reflector), l[j]? = some rj → ∀ (t2 u2 : ℝ) (p2 : Vec),
        raySegmentIntersection p dir rj.a rj.b = some (t2, u2, p2) → t < t2) →
      foldRefl none p dir (enumFrom n l) (some (Cand.dud t u q)) = some (Cand.dud t u q) := by
  intro l
  induction l with
  | nil =>
    intro n h
    rfl
  | cons r rest ih =>
    intro n h
    rw [enumFrom, foldRefl, foldReflStep_dud_keep p dir n r t u q (h 0 r (by simp))]
    exact ih (n + 1) (fun j rj hj => h (j + 1) rj (by simpa using hj))

theorem foldRefl_reach_dud (p dir : Vec) (i : ℕ) (t u : ℝ) (q : Vec) :
    ∀ (l : List Reflector) (n : ℕ) (acc : Option Cand),
      n ≤ i → i - n < l.length →
      (∀ (j : ℕ) (rj : Reflector), l[j]? = some rj → n + j ≠ i → ∀ (t2 u2 : ℝ) (p2 : Vec),
        raySegmentIntersection p dir rj.a rj.b = some (t2, u2, p2) → t < t2) →
      (∀ (j : ℕ) (rj : Reflector), l[j]? = some rj → n + j = i →
        raySegmentIntersection p dir rj.a rj.b = some (t, u, q) ∧
          (u < CORNER_TOL_FRAC ∨ 1 - CORNER_TOL_FRAC < u)) →
      (acc = none ∨ ∃ c, acc = some c ∧ t < c.tOf) →
      foldRefl none p dir (enumFrom n l) acc = some (Cand.dud t u q) := by
  intro l
  induction l with
  | nil =>
    intro n acc hn hlen _ _ _
    simp at hlen
  | cons r rest ih =>
    intro n acc hn hlen hmin hdud hacc
    rw [enumFrom, foldRefl]
    by_cases hni : n = i
    · obtain ⟨hint, hband⟩ := hdud 0 r (by simp) (by omega)
      rw [foldReflStep_take_dud p dir n r acc t u q hint hband hacc]
      exact foldRefl_after_dud p dir t u q rest (n + 1)
        (fun j rj hj => hmin (j + 1) rj (by simpa using hj) (by omega))
    · have hfar : ∀ (t2 u2 : ℝ) (p2 : Vec),
          raySegmentIntersection p dir r.a r.b = some (t2, u2, p2) → t < t2 :=
        fun t2 u2 p2 h2 => hmin 0 r (by simp) (by omega) t2 u2 p2 h2
      apply ih (n + 1) (foldReflStep none p dir n r acc) (by omega)
        (by simp at hlen; omega)
        (fun j rj hj hne => hmin (j + 1) rj (by simpa using hj) (by omega))
        (fun j rj hj he => hdud (j + 1) rj (by simpa using hj) (by omega))
        (foldReflStep_far p dir n r acc t hfar hacc)

/-- C7: a reflector hit whose parameter `u` falls in the corner tolerance band
still competes in the nearest-distance comparison, and when it is strictly
nearest among all candidate events (other reflector hits, the target, the
bounds exit) the path terminates immediately at that point with reason `dud`
and `hitTarget = false`. -/
theorem dud_wins_terminates_path (rs : List Reflector) (tgt : Target) (bounds : AABB)
    (origin direction : Vec) (maxBounces : ℕ) (i : ℕ) (t u : ℝ) (p : Vec) (r : Reflector)
    (hr : rs[i]? = some r)
    (hinter : raySegmentIntersection origin (vNorm direction) r.a r.b = some (t, u, p))
    (hband : u < CORNER_TOL_FRAC ∨ 1 - CORNER_TOL_FRAC < u)
    (hmin : ∀ j rj, rs[j]? = some rj → j ≠ i → ∀ t2 u2 p2,
      raySegmentIntersection origin (vNorm direction) rj.a rj.b = some (t2, u2, p2) → t < t2)
    (htgt : ∀ t2, rayAABBIntersection origin (vNorm direction) tgt.aabb = some t2 → t < t2)
    (hexit : ∀ t2,
      rayAABBExitDistanceFromInside origin (vNorm direction) bounds = some t2 → t < t2) :
    raycastPath rs tgt bounds origin direction maxBounces =
      ([origin, p], false, Reason.dud, [Event.endpointDud t p u]) := by
  have hlen : i < rs.length := by
    by_contra hcon
    rw [List.getElem?_eq_none (by omega)] at hr
    cases hr
  have hfold : foldRefl none origin (vNorm direction) (enumFrom 0 rs) none
      = some (Cand.dud t u p) := by
    apply foldRefl_reach_dud origin (vNorm direction) i t u p rs 0 none (by omega)
      (by omega)
    · intro j rj hj hne
      exact hmin j rj hj (by omega)
    · intro j rj hj he
      have : j = i := by omega
      subst this
      rw [hr] at hj
      cases hj
      exact ⟨hinter, hband⟩
    · exact Or.inl rfl
  have hnear : nearestCandidate rs tgt bounds none origin (vNorm direction)
      = some (Cand.dud t u p) := by
    unfold nearestCandidate
    rw [hfold]
    cases h2 : rayAABBIntersection origin (vNorm direction) tgt.aabb with
    | none =>
      cases h3 : rayAABBExitDistanceFromInside origin (vNorm direction) bounds with
      | none => rfl
      | some t3 =>
        have ht3 := hexit t3 h3
        dsimp only [Cand.tOf]
        rw [if_neg (not_lt.mpr (le_of_lt ht3))]
    | some t2 =>
      have ht2 := htgt t2 h2
      cases h3 : rayAABBExitDistanceFromInside origin (vNorm direction) bounds with
      | none =>
        dsimp only [Cand.tOf]
        rw [if_neg (not_lt.mpr (le_of_lt ht2))]
      | some t3 =>
        have ht3 := hexit t3 h3
        dsimp only [Cand.tOf]
        rw [if_neg (not_lt.mpr (le_of_lt ht2))]
        dsimp only [Cand.tOf]
        rw [if_neg (not_lt.mpr (le_of_lt ht3))]
  unfold raycastPath
  rw [raycastLoop_step_dud _ _ _ maxBounces _ _ _ _ _ _ _ _ hnear]
  rfl

theorem dud_wins_terminates_path_witness :
    raycastPath [dudProbeReflector] openLevel.target openLevel.bounds (100, 500) (1, 0)
        MAX_BOUNCES =
      ([((100 : ℝ), (500 : ℝ)), (400, 500)], false, Reason.dud,
        [Event.endpointDud 300 (400, 500) (1 / 120)]) := by
  have hd : vNorm ((1 : ℝ), (0 : ℝ)) = (1, 0) := vNorm_pos_x 1 (by norm_num)
  have hint : raySegmentIntersection (100, 500) (vNorm ((1 : ℝ), (0 : ℝ)))
      dudProbeReflector.a dudProbeReflector.b = some (300, 1 / 120, (400, 500)) := by
    rw [hd]
    show raySegmentIntersection (100, 500) (1, 0) (400, 502) (400, 262)
      = some (300, 1 / 120, (400, 500))
    unfold raySegmentIntersection vSub vCross vAdd vMul RAY_EPS
    norm_num [Prod.ext_iff]
  refine dud_wins_terminates_path [dudProbeReflector] openLevel.target openLevel.bounds
    (100, 500) (1, 0) MAX_BOUNCES 0 300 (1 / 120) (400, 500) dudProbeReflector (by simp)
    hint (Or.inl (by norm_num [CORNER_TOL_FRAC])) ?_ ?_ ?_
  · intro j rj hj hne
    cases j with
    | zero => exact absurd rfl hne
    | succ m => simp at hj
  · intro t2 h2
    rw [hd] at h2
    have hcomp : rayAABBIntersection ((100 : ℝ), (500 : ℝ)) (1, 0) openLevel.target.aabb
        = some 700 := by
      show rayAABBIntersection (100, 500) (1, 0) (Target.mk 800 460 80 80).aabb = some 700
      unfold rayAABBIntersection Target.aabb slabLoHi finishIntersection RAY_EPS
      norm_num [min_def, max_def]
    rw [hcomp] at h2
    injection h2 with he
    rw [← he]
    norm_num
  · intro t2 h2
    rw [hd] at h2
    have hcomp : rayAABBExitDistanceFromInside ((100 : ℝ), (500 : ℝ)) (1, 0) openLevel.bounds
        = some 900 := by
      show rayAABBExitDistanceFromInside (100, 500) (1, 0) (0, 0, 1000, 1000) = some 900
      unfold rayAABBExitDistanceFromInside exitFinish RAY_EPS
      norm_num [min_def, max_def]
    rw [hcomp] at h2
    injection h2 with he
    rw [← he]
    norm_num

theorem vNorm_unit (d : Vec) (h : d.1 ^ 2 + d.2 ^ 2 = 1) : vNorm d = d := by
  unfold vNorm vLen
  rw [h, Real.sqrt_one, if_neg (by norm_num), div_one, div_one]

theorem sym_div_bounds (dd : ℝ) (hne : ¬|dd| < 1e-12) (hle : dd ^ 2 ≤ 1) :
    min ((0 - 500) / dd) ((1000 - 500) / dd) = -(500 / |dd|) ∧
    max ((0 - 500) / dd) ((1000 - 500) / dd) = 500 / |dd| ∧ (500 : ℝ) ≤ 500 / |dd| := by
  have habs : (1e-12 : ℝ) ≤ |dd| := not_lt.mp hne
  have hpos : (0 : ℝ) < |dd| := lt_of_lt_of_le (by norm_num) habs
  have hle1 : |dd| ≤ 1 := by
    nlinarith [sq_abs dd, abs_nonneg dd]
  have hlast : (500 : ℝ) ≤ 500 / |dd| := by
    rw [le_div_iff hpos]
    nlinarith
  rcases abs_cases dd with ⟨he, hsign⟩ | ⟨he, hsign⟩
  · have hd : 0 < dd := lt_of_lt_of_le hpos (le_of_eq he)
    have hA : (0 - 500 : ℝ) / dd < 0 := div_neg_of_neg_of_pos (by norm_num) hd
    have hB : (0 : ℝ) < (1000 - 500) / dd := div_pos (by norm_num) hd
    refine ⟨?_, ?_, hlast⟩
    · rw [min_eq_left (le_of_lt (lt_trans hA hB)), he]
      ring
    · rw [max_eq_right (le_of_lt (lt_trans hA hB)), he]
      ring
  · have hd : dd < 0 := hsign
    have hA : (1000 - 500 : ℝ) / dd < 0 := div_neg_of_pos_of_neg (by norm_num) hd
    have hB : (0 : ℝ) < (0 - 500) / dd := div_pos_of_neg_of_neg (by norm_num) hd
    refine ⟨?_, ?_, hlast⟩
    · rw [min_eq_right (le_of_lt (lt_trans hA hB)), he, div_neg]
      ring
    · rw [max_eq_left (le_of_lt (lt_trans hA hB)), he, div_neg]
      ring

theorem central_box_eval (d : Vec) (h : d.1 ^ 2 + d.2 ^ 2 = 1) :
    ∃ T, 0 < T ∧
      rayAABBIntersection (500, 500) d (0, 0, 1000, 1000) = some T ∧
      rayAABBExitDistanceFromInside (500, 500) d (0, 0, 1000, 1000) = some T := by
  have hsq1 : d.1 ^ 2 ≤ 1 := by nlinarith [sq_nonneg d.2]
  have hsq2 : d.2 ^ 2 ≤ 1 := by nlinarith [sq_nonneg d.1]
  by_cases h1 : |d.1| < 1e-12
  · by_cases h2 : |d.2| < 1e-12
    · exfalso
      have e1 : d.1 ^ 2 < 1e-24 := by nlinarith [sq_abs d.1, abs_nonneg d.1]
      have e2 : d.2 ^ 2 < 1e-24 := by nlinarith [sq_abs d.2, abs_nonneg d.2]
      linarith
    · obtain ⟨hmin, hmax, hge⟩ := sym_div_bounds d.2 h2 hsq2
      have hT : (0 : ℝ) < 500 / |d.2| := by linarith
      refine ⟨500 / |d.2|, hT, ?_, ?_⟩
      · unfold rayAABBIntersection slabLoHi finishIntersection
        rw [if_pos h1, if_neg (by norm_num : ¬((500 : ℝ) < 0 ∨ (0 : ℝ) + 1000 < 500)),
          if_neg h2]
        dsimp only
        rw [show ((0 : ℝ) + 1000) = 1000 by norm_num, hmin, hmax]
        rw [if_neg (by rw [RAY_EPS]; linarith), if_neg (by rw [RAY_EPS]; linarith),
          if_pos (by rw [RAY_EPS]; linarith)]
      · unfold rayAABBExitDistanceFromInside exitFinish
        rw [if_pos h1, if_neg h2, show ((0 : ℝ) + 1000) = 1000 by norm_num, hmax,
          if_pos (by rw [RAY_EPS]; linarith)]
  · by_cases h2 : |d.2| < 1e-12
    · obtain ⟨hmin, hmax, hge⟩ := sym_div_bounds d.1 h1 hsq1
      have hT : (0 : ℝ) < 500 / |d.1| := by linarith
      refine ⟨500 / |d.1|, hT, ?_, ?_⟩
      · unfold rayAABBIntersection slabLoHi finishIntersection
        rw [if_neg h1, if_pos h2, if_neg (by norm_num : ¬((500 : ℝ) < 0 ∨ (0 : ℝ) + 1000 < 500))]
        dsimp only
        rw [show ((0 : ℝ) + 1000) = 1000 by norm_num, hmin, hmax]
        rw [if_neg (by rw [RAY_EPS]; linarith), if_neg (by rw [RAY_EPS]; linarith),
          if_pos (by rw [RAY_EPS]; linarith)]
      · unfold rayAABBExitDistanceFromInside exitFinish
        rw [if_neg h1, if_pos h2, show ((0 : ℝ) + 1000) = 1000 by norm_num, hmax,
          if_pos (by rw [RAY_EPS]; linarith)]
    · obtain ⟨hmin1, hmax1, hge1⟩ := sym_div_bounds d.1 h1 hsq1
      obtain ⟨hmin2, hmax2, hge2⟩ := sym_div_bounds d.2 h2 hsq2
      have hT : (0 : ℝ) < min (500 / |d.1|) (500 / |d.2|) := lt_min (by linarith) (by linarith)
      have hTge : (500 : ℝ) ≤ min (500 / |d.1|) (500 / |d.2|) := le_min hge1 hge2
      refine ⟨min (500 / |d.1|) (500 / |d.2|), hT, ?_, ?_⟩
      · unfold rayAABBIntersection slabLoHi finishIntersection
        rw [if_neg h1, if_neg h2]
        dsimp only
        rw [show ((0 : ℝ) + 1000) = 1000 by norm_num, hmin1, hmax1, hmin2, hmax2]
        rw [max_neg_neg]
        have hminpos : -min (500 / |d.1|) (500 / |d.2|) < 0 := by linarith
        rw [if_neg (by push_neg; linarith [hTge] :
          ¬min (500 / |d.1|) (500 / |d.2|) < -min (500 / |d.1|) (500 / |d.2|))]
        rw [if_neg (by rw [RAY_EPS]; linarith), if_neg (by rw [RAY_EPS]; linarith),
          if_pos (by rw [RAY_EPS]; linarith)]
      · unfold rayAABBExitDistanceFromInside exitFinish
        rw [if_neg h1, if_neg h2, show ((0 : ℝ) + 1000) = 1000 by norm_num, hmax1, hmax2,
          if_pos (by rw [RAY_EPS]; linarith)]

theorem bigTarget_hits (d : Vec) (h : d.1 ^ 2 + d.2 ^ 2 = 1) :
    hitsTarget bigTargetLevel d = true := by
  obtain ⟨T, hT, hinter, hexit⟩ := central_box_eval d h
  show (raycastPath [] (Target.mk 0 0 1000 1000) (0, 0, 1000, 1000) (500, 500) d
    MAX_BOUNCES).2.1 = true
  unfold raycastPath
  rw [vNorm_unit d h]
  have hnear : nearestCandidate [] (Target.mk 0 0 1000 1000) (0, 0, 1000, 1000) none
      (500, 500) d = some (Cand.target T (vAdd (500, 500) (vMul d T))) := by
    unfold nearestCandidate enumFrom foldRefl
    rw [show Target.aabb (Target.mk 0 0 1000 1000) = (0, 0, 1000, 1000) from rfl, hinter, hexit]
    dsimp only [Cand.tOf]
    rw [if_neg (lt_irrefl T)]
  rw [raycastLoop_step_target _ _ _ MAX_BOUNCES _ _ _ _ _ _ _ hnear]

theorem bigTarget_bisectHits (deg : ℝ) : bisectHits bigTargetLevel (1, 0) deg = true := by
  unfold bisectHits
  apply bigTarget_hits
  unfold vRot
  have hc : ((1 : ℝ) * Real.cos (Real.pi / 180 * deg) - 0 * Real.sin (Real.pi / 180 * deg))
      = Real.cos (Real.pi / 180 * deg) := by ring
  have hs : ((1 : ℝ) * Real.sin (Real.pi / 180 * deg) + 0 * Real.cos (Real.pi / 180 * deg))
      = Real.sin (Real.pi / 180 * deg) := by ring
  show ((1 : ℝ) * Real.cos (Real.pi / 180 * deg) - 0 * Real.sin (Real.pi / 180 * deg)) ^ 2 +
    ((1 : ℝ) * Real.sin (Real.pi / 180 * deg) + 0 * Real.cos (Real.pi / 180 * deg)) ^ 2 = 1
  rw [hc, hs]
  exact Real.cos_sq_add_sin_sq _

theorem bisectLoop_step_true (hits : ℝ → Bool) (s : ℝ) (hall : ∀ x, hits x = true)
    (fuel : ℕ) (lo hi : ℝ) :
    bisectLoop hits s (fuel + 1) lo hi =
      if hi - (lo + hi) / 2 < 0.05 then (lo + hi) / 2
      else bisectLoop hits s fuel ((lo + hi) / 2) hi := by
  rw [bisectLoop]
  rw [if_pos (hall (s * ((lo + hi) / 2))), if_pos (hall (s * ((lo + hi) / 2)))]

theorem bisectLoop_true_val (hits : ℝ → Bool) (s : ℝ) (hall : ∀ x, hits x = true) :
    bisectLoop hits s 20 0 25 = 24.951171875 := by
  rw [show (20 : ℕ) = 19 + 1 from rfl, bisectLoop_step_true hits s hall,
    show ((0 : ℝ) + 25) / 2 = 12.5 by norm_num, if_neg (by norm_num)]
  rw [show (19 : ℕ) = 18 + 1 from rfl, bisectLoop_step_true hits s hall,
    show ((12.5 : ℝ) + 25) / 2 = 18.75 by norm_num, if_neg (by norm_num)]
  rw [show (18 : ℕ) = 17 + 1 from rfl, bisectLoop_step_true hits s hall,
    show ((18.75 : ℝ) + 25) / 2 = 21.875 by norm_num, if_neg (by norm_num)]
  rw [show (17 : ℕ) = 16 + 1 from rfl, bisectLoop_step_true hits s hall,
    show ((21.875 : ℝ) + 25) / 2 = 23.4375 by norm_num, if_neg (by norm_num)]
  rw [show (16 : ℕ) = 15 + 1 from rfl, bisectLoop_step_true hits s hall,
    show ((23.4375 : ℝ) + 25) / 2 = 24.21875 by norm_num, if_neg (by norm_num)]
  rw [show (15 : ℕ) = 14 + 1 from rfl, bisectLoop_step_true hits s hall,
    show ((24.21875 : ℝ) + 25) / 2 = 24.609375 by norm_num, if_neg (by norm_num)]
  rw [show (14 : ℕ) = 13 + 1 from rfl, bisectLoop_step_true hits s hall,
    show ((24.609375 : ℝ) + 25) / 2 = 24.8046875 by norm_num, if_neg (by norm_num)]
  rw [show (13 : ℕ) = 12 + 1 from rfl, bisectLoop_step_true hits s hall,
    show ((24.8046875 : ℝ) + 25) / 2 = 24.90234375 by norm_num, if_neg (by norm_num)]
  rw [show (12 : ℕ) = 11 + 1 from rfl, bisectLoop_step_true hits s hall,
    show ((24.90234375 : ℝ) + 25) / 2 = 24.951171875 by norm_num, if_pos (by norm_num)]

/-- C5 (counterexample): on a level whose emitter lies inside the target box,
every probed direction hits, the expansion loop raises `hi` to `25`, and the
bisection returns `24.951171875 > 20` per side, so the summed tolerance
exceeds 40 degrees — refuting the claimed 20-degree per-side cap. -/
theorem aim_tolerance_exceeds_twenty_counterexample :
    20 < (aimToleranceBisect bigTargetLevel (1, 0)).1 ∧
    40 < (aimToleranceBisect bigTargetLevel (1, 0)).1 +
      (aimToleranceBisect bigTargetLevel (1, 0)).2 := by
  have hall : ∀ x, bisectHits bigTargetLevel (1, 0) x = true := bigTarget_bisectHits
  have hb : ∀ sgn : ℝ, bisectBoundary (bisectHits bigTargetLevel (1, 0)) sgn
      = 24.951171875 := by
    intro sgn
    unfold bisectBoundary boundaryHi
    rw [if_pos (hall (sgn * 20)), show (20 : ℝ) * 1.25 = 25 by norm_num]
    exact bisectLoop_true_val _ _ hall
  unfold aimToleranceBisect
  rw [hb 1, hb (-1)]
  norm_num

theorem bisectLoop_bounds (hits : ℝ → Bool) (s : ℝ) :
    ∀ (fuel : ℕ) (lo hi : ℝ), 0 ≤ lo → lo < hi →
      lo ≤ bisectLoop hits s fuel lo hi ∧ bisectLoop hits s fuel lo hi < hi := by
  intro fuel
  induction fuel with
  | zero =>
    intro lo hi h0 hlh
    exact ⟨le_refl _, hlh⟩
  | succ n ih =>
    intro lo hi h0 hlh
    rw [bisectLoop]
    have hmid1 : lo < (lo + hi) / 2 := by linarith
    have hmid2 : (lo + hi) / 2 < hi := by linarith
    cases hh : hits (s * ((lo + hi) / 2)) with
    | true =>
      rw [if_pos rfl, if_pos rfl]
      by_cases hgap : hi - (lo + hi) / 2 < 0.05
      · rw [if_pos hgap]
        exact ⟨le_of_lt hmid1, hmid2⟩
      · rw [if_neg hgap]
        obtain ⟨ha, hb⟩ := ih ((lo + hi) / 2) hi (le_trans h0 (le_of_lt hmid1)) hmid2
        exact ⟨le_trans (le_of_lt hmid1) ha, hb⟩
    | false =>
      rw [if_neg Bool.false_ne_true, if_neg Bool.false_ne_true]
      by_cases hgap : (lo + hi) / 2 - lo < 0.05
      · rw [if_pos hgap]
        exact ⟨le_refl _, hlh⟩
      · rw [if_neg hgap]
        obtain ⟨ha, hb⟩ := ih lo ((lo + hi) / 2) h0 hmid1
        exact ⟨ha, lt_trans hb hmid2⟩

/-- C5 (amended): each boundary returned by the angular-tolerance search is
nonnegative and strictly below 25 degrees (the expansion loop can raise the
bracket to `20 * 1.25 = 25`), so `aimToleranceDeg`, the sum of the two
boundaries, is strictly below 50 degrees. -/
theorem aim_tolerance_lt_twentyfive (st : LevelState) (baseDir : Vec) :
    0 ≤ (aimToleranceBisect st baseDir).1 ∧ (aimToleranceBisect st baseDir).1 < 25 ∧
    0 ≤ (aimToleranceBisect st baseDir).2 ∧ (aimToleranceBisect st baseDir).2 < 25 ∧
    (aimToleranceBisect st baseDir).1 + (aimToleranceBisect st baseDir).2 < 50 := by
  have key : ∀ (hits : ℝ → Bool) (sgn : ℝ),
      0 ≤ bisectBoundary hits sgn ∧ bisectBoundary hits sgn < 25 := by
    intro hits sgn
    have hBH : (0 : ℝ) < boundaryHi hits sgn ∧ boundaryHi hits sgn ≤ 25 := by
      unfold boundaryHi
      split <;> norm_num
    obtain ⟨ha, hb⟩ := bisectLoop_bounds hits sgn 20 0 (boundaryHi hits sgn)
      (le_refl 0) hBH.1
    exact ⟨ha, lt_of_lt_of_le hb hBH.2⟩
  unfold aimToleranceBisect
  obtain ⟨a1, a2⟩ := key (bisectHits st baseDir) 1
  obtain ⟨b1, b2⟩ := key (bisectHits st baseDir) (-1)
  exact ⟨a1, a2, b1, b2, by linarith⟩

-- Preservation of the solution-path validation through the generation loops.

theorem noiseLoop_preserves (s : RandStream) :
    ∀ (fuel added : ℕ) (st : LevelState) (k : ℕ),
      validateSolutionPath st = true →
      validateSolutionPath (noiseLoop s fuel added st k).1 = true := by
  intro fuel
  induction fuel with
  | zero =>
    intro added st k h
    exact h
  | succ n ih =>
    intro added st k h
    rw [noiseLoop]
    dsimp only
    split
    · exact h
    · split
      · exact ih _ _ _ h
      · split
        · next hv => exact ih _ _ _ hv
        · exact ih _ _ _ h

theorem pbfaLoop_preserves (st : LevelState) (dirv : Vec) (tHit : ℝ) :
    ∀ (fracs : List ℝ),
      validateSolutionPath st = true →
      validateSolutionPath (pbfaLoop st dirv tHit fracs).2 = true := by
  intro fracs
  induction fracs with
  | nil =>
    intro h
    exact h
  | cons f rest ih =>
    intro h
    rw [pbfaLoop]
    dsimp only
    split
    · exact ih h
    · split
      · exact ih h
      · split
        · next hv => exact hv
        · exact ih h

theorem placeBlockerForAngle_preserves (st : LevelState) (ang : ℝ)
    (h : validateSolutionPath st = true) :
    validateSolutionPath (placeBlockerForAngle st ang).2 = true := by
  unfold placeBlockerForAngle
  dsimp only
  cases rayAABBIntersection st.emitter (Real.cos ang, Real.sin ang) st.target.aabb with
  | none => exact h
  | some tHit => exact pbfaLoop_preserves st _ tHit pbfaFracs h

theorem ensureLoop_preserves (s : RandStream) :
    ∀ (fuel : ℕ) (st : LevelState) (k : ℕ),
      validateSolutionPath st = true →
      validateSolutionPath (ensureLoop s fuel st k).2.1 = true := by
  intro fuel
  induction fuel with
  | zero =>
    intro st k h
    exact h
  | succ n ih =>
    intro st k h
    rw [ensureLoop]
    cases hds : hasDirectShot st with
    | none => exact h
    | some ang =>
      dsimp only
      split
      · exact ih _ _ (placeBlockerForAngle_preserves st ang h)
      · cases rayAABBIntersection st.emitter (Real.cos ang, Real.sin ang) st.target.aabb with
        | none => exact h
        | some tHit =>
          dsimp only
          split
          · next hv => exact ih _ _ hv
          · exact h

theorem computeDifficultyScore_geometry (st : LevelState) :
    (computeDifficultyScore st).reflectors = st.reflectors ∧
    (computeDifficultyScore st).target = st.target ∧
    (computeDifficultyScore st).emitter = st.emitter ∧
    (computeDifficultyScore st).solution_first_dir = st.solution_first_dir ∧
    (computeDifficultyScore st).bounds = st.bounds := by
  unfold computeDifficultyScore
  dsimp only
  split
  · exact ⟨rfl, rfl, rfl, rfl, rfl⟩
  · split
    · exact ⟨rfl, rfl, rfl, rfl, rfl⟩
    · exact ⟨rfl, rfl, rfl, rfl, rfl⟩

theorem validate_computeDifficultyScore (st : LevelState) :
    validateSolutionPath (computeDifficultyScore st) = validateSolutionPath st := by
  obtain ⟨h1, h2, h3, h4, h5⟩ := computeDifficultyScore_geometry st
  unfold validateSolutionPath
  rw [h1, h2, h3, h4, h5]

theorem validate_cast (st : LevelState) (h : validateSolutionPath st = true) :
    (raycastPath st.reflectors st.target st.bounds st.emitter st.solution_first_dir
      MAX_BOUNCES).2.1 = true := by
  unfold validateSolutionPath at h
  by_cases hc : vLen st.solution_first_dir < 1e-6
  · rw [if_pos hc] at h
    cases h
  · rw [if_neg hc] at h
    exact h

/-- C1 (amended): every level the generator produces through the success
branch of the attempt loop — an attempt that passed validation, noise
injection and direct-shot suppression — satisfies the solvability cast: the
ray from its emitter along its solution direction hits the target within
`MAX_BOUNCES`.  (The fallback branch does not guarantee this; see the
counterexample.) -/
theorem successful_attempt_validates (s : RandStream) (fuel : ℕ) (st : LevelState) (k : ℕ) :
    Option.all
      (fun lvl => (raycastPath lvl.reflectors lvl.target lvl.bounds lvl.emitter
        lvl.solution_first_dir MAX_BOUNCES).2.1)
      (attemptsLoop s fuel st k).1 = true := by
  induction fuel generalizing st k with
  | zero => rfl
  | succ n ih =>
    rw [attemptsLoop]
    dsimp only
    split
    · exact ih _ _
    · split
      · exact ih _ _
      · split
        · exact ih _ _
        · split
          · exact ih _ _
          · next h1 h2 h3 h4 =>
            show (fun lvl => (raycastPath lvl.reflectors lvl.target lvl.bounds lvl.emitter
              lvl.solution_first_dir MAX_BOUNCES).2.1) (computeDifficultyScore _) = true
            dsimp only
            apply validate_cast
            rw [validate_computeDifficultyScore]
            apply ensureLoop_preserves
            apply noiseLoop_preserves
            exact not_not.mp h2

/-- C9: every result of the ray-caster satisfies `hitTarget = true` exactly
when the reason is `hit`; every other outcome reports `miss` or `dud` with
`hitTarget = false`. -/
theorem hitTarget_iff_reason_hit (rs : List Reflector) (tgt : Target) (bounds : AABB)
    (origin direction : Vec) (maxBounces : ℕ) :
    ((raycastPath rs tgt bounds origin direction maxBounces).2.1 = true ↔
      (raycastPath rs tgt bounds origin direction maxBounces).2.2.1 = Reason.hit) ∧
    ((raycastPath rs tgt bounds origin direction maxBounces).2.1 = false →
      (raycastPath rs tgt bounds origin direction maxBounces).2.2.1 = Reason.miss ∨
      (raycastPath rs tgt bounds origin direction maxBounces).2.2.1 = Reason.dud) := by
  have h := raycastLoop_hit_iff rs tgt bounds (maxBounces + 1) [origin] origin
    (vNorm direction) none []
  unfold raycastPath
  refine ⟨h, ?_⟩
  intro hfalse
  rcases hr : (raycastLoop rs tgt bounds (maxBounces + 1) [origin] origin
    (vNorm direction) none []).2.2.1 with _ | _ | _
  · rw [hr] at h
    simp at h
    rw [h] at hfalse
    cases hfalse
  · exact Or.inl rfl
  · exact Or.inr rfl

/-- C10: the ray-caster always terminates within `maxBounces + 1` loop
iterations, and its points list starts at the origin and has between 2 and
`maxBounces + 2` entries. -/
theorem raycast_points_bounds (rs : List Reflector) (tgt : Target) (bounds : AABB)
    (origin direction : Vec) (maxBounces : ℕ) :
    (raycastPath rs tgt bounds origin direction maxBounces).1.head? = some origin ∧
    2 ≤ (raycastPath rs tgt bounds origin direction maxBounces).1.length ∧
    (raycastPath rs tgt bounds origin direction maxBounces).1.length ≤ maxBounces + 2 := by
  have h := raycastLoop_points_spec rs tgt bounds (maxBounces + 1) [origin] origin
    (vNorm direction) none [] (by simp)
  unfold raycastPath
  refine ⟨by rw [h.1]; rfl, ?_, ?_⟩
  · have := h.2.2.2 (by omega)
    simp only [List.length_singleton] at this
    omega
  · have := h.2.2.1
    simp only [List.length_singleton] at this
    omega

/-- C3: the per-round difficulty parameters match the spec's closed formulas,
and in particular rounds 1, 5, 20 give `(1, 1, 90)`, `(3, 5, 66)` and
`(8, 12, 26)`. -/
theorem difficultyParams_formula (r : ℤ) (h : 1 ≤ r) :
    difficultyParams r = (min (1 + (r - 1) / 2) 8, min r 12, max 26 (90 - 6 * (r - 1))) ∧
    difficultyParams 1 = (1, 1, 90) ∧
    difficultyParams 5 = (3, 5, 66) ∧
    difficultyParams 20 = (8, 12, 26) := by
  refine ⟨?_, by decide, by decide, by decide⟩
  unfold difficultyParams
  rw [Int.fdiv_eq_ediv _ (by omega)]

theorem difficultyParams_formula_witness :
    difficultyParams 5 = (min (1 + ((5 : ℤ) - 1) / 2) 8, min 5 12, max 26 (90 - 6 * ((5 : ℤ) - 1))) ∧
    difficultyParams 5 = (3, 5, 66) :=
  ⟨(difficultyParams_formula 5 (by norm_num)).1, (difficultyParams_formula 5 (by norm_num)).2.2.1⟩

/-- C2: level generation is deterministic in the seeded random source — two
runs of the `Level` constructor from identical RNG states produce identical
emitter coordinates, target rectangles and reflector endpoints. -/
theorem level_generation_deterministic (r : ℕ) (seed1 seed2 : ℕ) (h : seed1 = seed2) :
    (levelNewSeeded r seed1).emitter = (levelNewSeeded r seed2).emitter ∧
    (levelNewSeeded r seed1).target = (levelNewSeeded r seed2).target ∧
    (levelNewSeeded r seed1).reflectors.map (fun rf => (rf.a, rf.b)) =
      (levelNewSeeded r seed2).reflectors.map (fun rf => (rf.a, rf.b)) := by
  subst h
  exact ⟨rfl, rfl, rfl⟩

theorem level_generation_deterministic_witness :
    (levelNewSeeded 1 12345).emitter = (levelNewSeeded 1 12345).emitter ∧
    (levelNewSeeded 1 12345).target = (levelNewSeeded 1 12345).target ∧
    (levelNewSeeded 1 12345).reflectors.map (fun rf => (rf.a, rf.b)) =
      (levelNewSeeded 1 12345).reflectors.map (fun rf => (rf.a, rf.b)) :=
  level_generation_deterministic 1 12345 12345 rfl

/-- C4: when a fired beam finishes with result `hit`, the awarded points are
`round(difficultyScore * (1 + TIME_BONUS_FACTOR * max 0 timeRemaining / ROUND_TIME))`,
the score increases by that amount, and the game moves to `round_complete`. -/
theorem finishBeam_score_award (g : GameSt) (h : g.beam_result = some Reason.hit) :
    (finishBeam g).points_awarded =
      round (g.difficulty_score * (1 + TIME_BONUS_FACTOR * (max 0 g.timer / ROUND_TIME))) ∧
    (finishBeam g).score = g.score +
      round (g.difficulty_score * (1 + TIME_BONUS_FACTOR * (max 0 g.timer / ROUND_TIME))) ∧
    (finishBeam g).state = GState.roundComplete := by
  unfold finishBeam
  rw [if_pos h]
  exact ⟨rfl, rfl, rfl⟩

theorem finishBeam_score_award_witness :
    (finishBeam (GameSt.mk GState.playing 0 60 100 true (some Reason.hit) 0 0)).points_awarded
      = 125 ∧
    (finishBeam (GameSt.mk GState.playing 0 60 100 true (some Reason.hit) 0 0)).score = 125 := by
  have h := finishBeam_score_award (GameSt.mk GState.playing 0 60 100 true (some Reason.hit) 0 0)
    rfl
  have hval : ((100 : ℝ) * (1 + TIME_BONUS_FACTOR * (max 0 (60 : ℝ) / ROUND_TIME))) = 125 := by
    simp only [TIME_BONUS_FACTOR, ROUND_TIME]
    norm_num
  have hv : round ((100 : ℝ) * (1 + TIME_BONUS_FACTOR * (max 0 (60 : ℝ) / ROUND_TIME)))
      = (125 : ℤ) := by
    rw [hval, show ((125 : ℝ)) = ((125 : ℤ) : ℝ) by norm_num, round_intCast]
  refine ⟨?_, ?_⟩
  · rw [h.1]
    exact hv
  · rw [h.2.1]
    show (0 : ℤ) + round ((100 : ℝ) * (1 + TIME_BONUS_FACTOR * (max 0 (60 : ℝ) / ROUND_TIME)))
      = 125
    rw [hv]
    omega

-- Evaluation of the generator under all-halves random streams.

theorem vRot_zero (a : Vec) : vRot a 0 = a := by
  unfold vRot
  rw [Real.cos_zero, Real.sin_zero, Prod.ext_iff]
  constructor <;> dsimp only <;> ring

theorem placeLoop_half (s : RandStream) :
    ∀ (fuel : ℕ) (st : LevelState) (k : ℕ),
      (∀ j, j < 4 * fuel → s (k + j) = 1 / 2) →
      placeLoop s fuel st k =
        ({ st with emitter := (SAFE_MARGIN * 2, VIRTUAL_H / 2),
                   target := Target.mk (VIRTUAL_W - SAFE_MARGIN * 2 - st.target_size)
                     (VIRTUAL_H / 2 - st.target_size / 2) st.target_size st.target_size },
          k + 4 * fuel) := by
  intro fuel
  induction fuel with
  | zero =>
    intro st k _
    rw [placeLoop]
    norm_num
  | succ n ih =>
    intro st k hs
    rw [placeLoop]
    have hpt : ∀ k2 : ℕ, s k2 = 1 / 2 → s (k2 + 1) = 1 / 2 →
        (randPointInSafeArea s k2).1 = ((500 : ℝ), (500 : ℝ)) := by
      intro k2 h0 h1
      unfold randPointInSafeArea uniformR SAFE_MARGIN VIRTUAL_W VIRTUAL_H
      rw [h0, h1]
      norm_num
    rw [hpt k (by simpa using hs 0 (by omega)) (hs 1 (by omega)),
      hpt (k + 2) (hs 2 (by omega)) (by
        rw [show k + 2 + 1 = k + 3 by omega]
        exact hs 3 (by omega))]
    rw [show vDist ((500 : ℝ), (500 : ℝ)) (500, 500) = 0 by
      unfold vDist vSub
      rw [show ((500 : ℝ) - 500, (500 : ℝ) - 500) = ((0 : ℝ), (0 : ℝ)) by norm_num,
        vLen_horizontal, abs_zero]]
    rw [if_neg (by norm_num : ¬(300 : ℝ) < 0)]
    rw [ih st (k + 4) (fun j hj => by
      rw [show k + 4 + j = k + (4 + j) by omega]
      exact hs (4 + j) (by omega))]
    refine congrArg _ ?_
    omega

theorem bspr_half_fails (s : RandStream) (st : LevelState) (k : ℕ)
    (hnr : st.num_reflections = 1)
    (hem : st.emitter = (120, 500))
    (htg : st.target = Target.mk 790 455 90 90)
    (hs0 : s k = 1 / 2) (hs1 : s (k + 1) = 1 / 2) :
    buildSolutionPathAndReflectors s st k = (false, st, k + 2) := by
  have hpoint : bsprPoint s 60 ((835 : ℝ), (500 : ℝ)) (-1, 0) (k + 1)
      = (some ((585, 500), (-1, 0)), k + 1 + 1) := by
    rw [show (60 : ℕ) = 59 + 1 from rfl, bsprPoint]
    rw [show uniformR s (k + 1) 180 320 = 250 by unfold uniformR; rw [hs1]; norm_num]
    rw [show vAdd ((835 : ℝ), (500 : ℝ)) (vMul (-1, 0) 250) = ((585 : ℝ), (500 : ℝ)) by
      unfold vAdd vMul
      norm_num]
    rw [if_pos (by norm_num [SAFE_MARGIN, VIRTUAL_W, VIRTUAL_H])]
  have hchain : bsprChain s ((120 : ℝ), (500 : ℝ)) 1 (835, 500) (-1, 0) [(835, 500)] []
      (k + 1) = (some ([((835 : ℝ), (500 : ℝ)), (585, 500)],
        [((-1 : ℝ), (0 : ℝ)), (-1, 0)]), k + 2) := by
    rw [show (1 : ℕ) = 0 + 1 from rfl, bsprChain, hpoint]
    dsimp only
    rw [if_pos rfl]
    rw [show vSub ((120 : ℝ), (500 : ℝ)) (585, 500) = ((-465 : ℝ), (0 : ℝ)) by
      unfold vSub
      norm_num]
    rw [vNorm_neg_x (-465) (by norm_num)]
    rw [show vLen ((-1 : ℝ), (0 : ℝ)) = 1 by rw [vLen_horizontal]; norm_num]
    rw [if_neg (by norm_num : ¬(1 : ℝ) < 1e-6)]
    rfl
  unfold buildSolutionPathAndReflectors
  dsimp only
  rw [hnr, hem, htg]
  rw [show Target.center (Target.mk 790 455 90 90) = ((835 : ℝ), (500 : ℝ)) by
    unfold Target.center
    norm_num]
  rw [show vSub ((120 : ℝ), (500 : ℝ)) (835, 500) = ((-715 : ℝ), (0 : ℝ)) by
    unfold vSub
    norm_num]
  rw [vNorm_neg_x (-715) (by norm_num)]
  rw [show vLen ((-1 : ℝ), (0 : ℝ)) = 1 by rw [vLen_horizontal]; norm_num]
  rw [if_neg (by norm_num : ¬(1 : ℝ) < 1e-6)]
  dsimp only
  rw [show uniformR s k (-(Real.pi / 3)) (Real.pi / 3) = 0 by
    unfold uniformR
    rw [hs0]
    ring]
  rw [vRot_zero, vNorm_neg_x (-1) (by norm_num)]
  rw [hchain]
  dsimp only
  have hrefl : bsprRefl s ((([((-1 : ℝ), (0 : ℝ)), (-1, 0)]).zip
      ((([((-1 : ℝ), (0 : ℝ)), (-1, 0)]).drop 1).zip
        (([((835 : ℝ), (500 : ℝ)), (585, 500)]).drop 1))).map
      (fun x => (x.1, x.2.1, x.2.2))) (k + 2) = (none, k + 2) := by
    show bsprRefl s [(((-1 : ℝ), (0 : ℝ)), ((-1 : ℝ), (0 : ℝ)), ((585 : ℝ), (500 : ℝ)))] (k + 2)
      = (none, k + 2)
    rw [bsprRefl]
    rw [show vSub ((-1 : ℝ), (0 : ℝ)) (-1, 0) = ((0 : ℝ), (0 : ℝ)) by
      unfold vSub
      norm_num]
    rw [show vLen ((0 : ℝ), (0 : ℝ)) = 0 by rw [vLen_horizontal, abs_zero]]
    rw [if_pos (by norm_num : (0 : ℝ) < 1e-6)]
  rw [hrefl]

theorem attemptsLoop_succ_half (s : RandStream) (n : ℕ) (st : LevelState) (k : ℕ)
    (hnr : st.num_reflections = 1) (hts : st.target_size = 90)
    (hs : ∀ j, j < 802 → s (k + j) = 1 / 2) :
    attemptsLoop s (n + 1) st k = attemptsLoop s n (attemptResultState st) (k + 802) := by
  rw [attemptsLoop]
  dsimp only
  rw [placeEmitterAndTarget]
  rw [placeLoop_half s 200 _ k (fun j hj => hs j (by omega))]
  rw [bspr_half_fails s _ (k + 4 * 200) ?h1 ?h2 ?h3 ?h4 ?h5]
  case h1 => exact hnr
  case h2 => norm_num [SAFE_MARGIN, VIRTUAL_H]
  case h3 => norm_num [SAFE_MARGIN, VIRTUAL_W, VIRTUAL_H, hts, Target.mk.injEq]
  case h4 =>
    rw [show k + 4 * 200 = k + 800 by omega]
    exact hs 800 (by omega)
  case h5 =>
    rw [show k + 4 * 200 + 1 = k + 801 by omega]
    exact hs 801 (by omega)
  dsimp only
  rw [if_pos (by simp : ¬false = true)]
  rw [show k + 4 * 200 + 2 = k + 802 by omega]
  congr 1
  unfold attemptResultState
  simp only [LevelState.mk.injEq]
  norm_num [hts, SAFE_MARGIN, VIRTUAL_W, VIRTUAL_H]

theorem attemptsLoop_half (s : RandStream) :
    ∀ (n : ℕ) (st : LevelState) (k : ℕ),
      st.num_reflections = 1 → st.target_size = 90 →
      (∀ j, j < 802 * (n + 1) → s (k + j) = 1 / 2) →
      attemptsLoop s (n + 1) st k = (none, attemptResultState st, k + 802 * (n + 1)) := by
  intro n
  induction n with
  | zero =>
    intro st k h1 h2 hs
    rw [attemptsLoop_succ_half s 0 st k h1 h2 (fun j hj => hs j (by omega))]
    rw [attemptsLoop]
  | succ m ih =>
    intro st k h1 h2 hs
    rw [attemptsLoop_succ_half s (m + 1) st k h1 h2 (fun j hj => hs j (by omega))]
    rw [ih (attemptResultState st) (k + 802) h1 h2 (fun j hj => by
      rw [show k + 802 + j = k + (802 + j) by omega]
      exact hs (802 + j) (by omega))]
    refine congrArg _ (congrArg _ ?_)
    omega

theorem fallbackLevel_half (s : RandStream) (st : LevelState) (k : ℕ)
    (hs : ∀ j, j < 800 → s (k + j) = 1 / 2) :
    fallbackLevel s st k =
      ({ st with
          num_reflections := 1, num_noise := 0, target_size := 80,
          emitter := ((120 : ℝ), (500 : ℝ)),
          target := Target.mk 800 460 80 80,
          reflectors := [Reflector.mk
            (vSub (480, 500) (vMul (vPerp (fallbackDir s (k + 800))) 120))
            (vAdd (480, 500) (vMul (vPerp (fallbackDir s (k + 800))) 120)) false false],
          solution_points := [((120 : ℝ), (500 : ℝ)), (480, 500), (840, 500)],
          solution_first_dir := ((1 : ℝ), (0 : ℝ)) }, k + 801) := by
  have hplaced : placeEmitterAndTarget s
      ({ st with num_reflections := 1, num_noise := 0, target_size := 80 }) k =
      ({ st with
          num_reflections := 1, num_noise := 0, target_size := 80,
          emitter := ((120 : ℝ), (500 : ℝ)),
          target := Target.mk 800 460 80 80 }, k + 800) := by
    rw [placeEmitterAndTarget, placeLoop_half s 200 _ k (fun j hj => hs j (by omega))]
    rw [Prod.mk.injEq]
    refine ⟨?_, rfl⟩
    simp only [LevelState.mk.injEq]
    norm_num [SAFE_MARGIN, VIRTUAL_W, VIRTUAL_H, Target.mk.injEq]
  have hnd : randDirection s (k + 800) =
      ((Real.cos (2 * Real.pi * s (k + 800)), Real.sin (2 * Real.pi * s (k + 800))), k + 801) := by
    unfold randDirection uniformR
    dsimp only
    rw [show (0 : ℝ) + (2 * Real.pi - 0) * s (k + 800) = 2 * Real.pi * s (k + 800) by ring]
  have hc : Target.center (Target.mk 800 460 80 80) = ((840 : ℝ), (500 : ℝ)) := by
    unfold Target.center
    norm_num
  unfold fallbackLevel
  dsimp only
  rw [hplaced]
  dsimp only
  rw [hc, hnd]
  dsimp only
  rw [show (((120 : ℝ), (500 : ℝ)).1 + ((840 : ℝ), (500 : ℝ)).1) / 2 = (480 : ℝ) by norm_num]
  rw [show (((120 : ℝ), (500 : ℝ)).2 + ((840 : ℝ), (500 : ℝ)).2) / 2 = (500 : ℝ) by norm_num]
  rw [show (240 : ℝ) * 0.5 = 120 by norm_num]
  rw [show vSub ((480 : ℝ), (500 : ℝ)) ((120 : ℝ), (500 : ℝ)) = ((360 : ℝ), (0 : ℝ)) by
    unfold vSub; norm_num]
  rw [vNorm_pos_x 360 (by norm_num)]
  rfl

theorem placeLoop_num_noise (s : RandStream) :
    ∀ (fuel : ℕ) (st : LevelState) (k : ℕ),
      (placeLoop s fuel st k).1.num_noise = st.num_noise := by
  intro fuel
  induction fuel with
  | zero => intro st k; rfl
  | succ n ih =>
    intro st k
    rw [placeLoop]
    by_cases h : 300 < vDist (randPointInSafeArea s k).1 (randPointInSafeArea s (k + 2)).1
    · rw [if_pos h]
    · rw [if_neg h]
      exact ih _ (k + 4)

/-- C6 counterexample: under `fallbackProbeStream` every one of the 120
generation attempts fails, and the fallback level's single reflector runs
from `(600, 500)` to `(360, 500)` — a segment along the emitter-to-target
line itself (dot product `-172800`), not perpendicular to it.  The random
direction drawn at stream position 97040 controls the orientation. -/
theorem fallback_reflector_not_perpendicular_counterexample :
    (attemptsLoop fallbackProbeStream 120 (levelInit 1) 0).1 = none ∧
    (fallbackLevel fallbackProbeStream
        (attemptsLoop fallbackProbeStream 120 (levelInit 1) 0).2.1
        (attemptsLoop fallbackProbeStream 120 (levelInit 1) 0).2.2).1.reflectors =
      [Reflector.mk (600, 500) (360, 500) false false] ∧
    (fallbackLevel fallbackProbeStream
        (attemptsLoop fallbackProbeStream 120 (levelInit 1) 0).2.1
        (attemptsLoop fallbackProbeStream 120 (levelInit 1) 0).2.2).1.emitter = (120, 500) ∧
    ((fallbackLevel fallbackProbeStream
        (attemptsLoop fallbackProbeStream 120 (levelInit 1) 0).2.1
        (attemptsLoop fallbackProbeStream 120 (levelInit 1) 0).2.2).1.target).center
      = (840, 500) ∧
    vDot (vSub ((360 : ℝ), (500 : ℝ)) ((600 : ℝ), (500 : ℝ)))
      (vSub ((840 : ℝ), (500 : ℝ)) ((120 : ℝ), (500 : ℝ))) ≠ 0 := by
  have h1 : (levelInit 1).num_reflections = 1 := by decide
  have h2 : (levelInit 1).target_size = 90 := by
    show ((max 26 (90 - 6 * ((1 : ℤ) - 1)) : ℤ) : ℝ) = 90
    norm_num
  have hw : ∀ j, j < 802 * (119 + 1) → fallbackProbeStream (0 + j) = 1 / 2 := by
    intro j hj
    unfold fallbackProbeStream
    rw [if_neg (by omega)]
  have hA : attemptsLoop fallbackProbeStream 120 (levelInit 1) 0 =
      (none, attemptResultState (levelInit 1), 96240) := by
    rw [show (120 : ℕ) = 119 + 1 from rfl,
      attemptsLoop_half fallbackProbeStream 119 (levelInit 1) 0 h1 h2 hw]
  have hFw : ∀ j, j < 800 → fallbackProbeStream (96240 + j) = 1 / 2 := by
    intro j hj
    unfold fallbackProbeStream
    rw [if_neg (by omega)]
  have hF := fallbackLevel_half fallbackProbeStream (attemptResultState (levelInit 1)) 96240 hFw
  have hD : fallbackDir fallbackProbeStream (96240 + 800) = ((0 : ℝ), (1 : ℝ)) := by
    unfold fallbackDir fallbackProbeStream
    rw [if_pos (by norm_num)]
    rw [show (2 : ℝ) * Real.pi * (1 / 4) = Real.pi / 2 by ring]
    rw [Real.cos_pi_div_two, Real.sin_pi_div_two]
  rw [hD] at hF
  have ha : vSub ((480 : ℝ), (500 : ℝ)) (vMul (vPerp ((0 : ℝ), (1 : ℝ))) 120)
      = ((600 : ℝ), (500 : ℝ)) := by
    unfold vSub vMul vPerp
    norm_num
  have hb : vAdd ((480 : ℝ), (500 : ℝ)) (vMul (vPerp ((0 : ℝ), (1 : ℝ))) 120)
      = ((360 : ℝ), (500 : ℝ)) := by
    unfold vAdd vMul vPerp
    norm_num
  rw [ha, hb] at hF
  refine ⟨by rw [hA], ?_, ?_, ?_, ?_⟩
  · rw [hA, hF]
  · rw [hA, hF]
  · rw [hA, hF]
    unfold Target.center
    norm_num
  · unfold vDot vSub
    norm_num

/-- C6 (amended): for every stream, state and read position, the fallback
level carries exactly one reflector, flagged neither noise nor blocker, whose
endpoints sum to emitter plus target centre (so its midpoint is the midpoint
of the emitter-to-target-centre segment), and the noise budget is zeroed; the
reflector's orientation, however, is drawn from the random stream rather than
forced perpendicular to the emitter-to-target direction. -/
theorem fallback_reflector_structure (s : RandStream) (st : LevelState) (k : ℕ) :
    ∃ a b : Vec,
      (fallbackLevel s st k).1.reflectors = [Reflector.mk a b false false] ∧
      vAdd a b = vAdd (fallbackLevel s st k).1.emitter
        ((fallbackLevel s st k).1.target).center ∧
      (fallbackLevel s st k).1.num_noise = 0 := by
  unfold fallbackLevel
  dsimp only
  refine ⟨_, _, rfl, ?_, ?_⟩
  · unfold vAdd vSub vMul Target.center
    dsimp only
    rw [Prod.mk.injEq]
    constructor <;> ring
  · rw [placeEmitterAndTarget, placeLoop_num_noise s]

theorem arctan19_pos : 0 < Real.arctan (1 / 19) := by
  have h := Real.arctan_strictMono (show (0 : ℝ) < 1 / 19 by norm_num)
  rwa [Real.arctan_zero] at h

theorem arctan17_pos : 0 < Real.arctan (1 / 17) := by
  have h := Real.arctan_strictMono (show (0 : ℝ) < 1 / 17 by norm_num)
  rwa [Real.arctan_zero] at h

theorem arctan19_lt_17 : Real.arctan (1 / 19) < Real.arctan (1 / 17) :=
  Real.arctan_strictMono (by norm_num)

theorem arctan17_lt_pi4 : Real.arctan (1 / 17) < Real.pi / 4 := by
  have h := Real.arctan_strictMono (show (1 : ℝ) / 17 < 1 by norm_num)
  rwa [Real.arctan_one] at h

theorem arctan17_lt_inv : Real.arctan (1 / 17) < 1 / 17 := by
  have h := Real.lt_tan arctan17_pos (Real.arctan_lt_pi_div_two _)
  rwa [Real.tan_arctan] at h

theorem arctan17_lt_two19 : Real.arctan (1 / 17) < 2 * Real.arctan (1 / 19) := by
  have hB : 0 < Real.arctan (1 / 19) := arctan19_pos
  have hBhi : Real.arctan (1 / 19) < Real.pi / 4 := by
    have h := Real.arctan_strictMono (show (1 : ℝ) / 19 < 1 by norm_num)
    rwa [Real.arctan_one] at h
  have hpi : 0 < Real.pi := Real.pi_pos
  have ht : Real.tan (2 * Real.arctan (1 / 19)) = 19 / 180 := by
    rw [Real.tan_two_mul, Real.tan_arctan]
    norm_num
  have h2B : Real.arctan (19 / 180) = 2 * Real.arctan (1 / 19) := by
    rw [← ht, Real.arctan_tan (by linarith) (by linarith)]
  calc Real.arctan (1 / 17) < Real.arctan (19 / 180) :=
        Real.arctan_strictMono (by norm_num)
    _ = 2 * Real.arctan (1 / 19) := h2B

theorem symm_slab_minmax (m dd : ℝ) (hm : 0 < m) (hdd : dd ≠ 0) :
    min (-m / dd) (m / dd) = -(m / |dd|) ∧ max (-m / dd) (m / dd) = m / |dd| := by
  rcases lt_or_gt_of_ne hdd with hneg | hpos
  · have h1 : m / dd < 0 := div_neg_of_pos_of_neg hm hneg
    have h2 : 0 < -m / dd := div_pos_of_neg_of_neg (by linarith) hneg
    rw [abs_of_neg hneg]
    constructor
    · rw [min_eq_right (le_of_lt (lt_trans h1 h2)), div_neg, neg_neg]
    · rw [max_eq_left (le_of_lt (lt_trans h1 h2)), neg_div, div_neg]
  · have h1 : -m / dd < 0 := div_neg_of_neg_of_pos (by linarith) hpos
    have h2 : 0 < m / dd := div_pos hm hpos
    rw [abs_of_pos hpos]
    constructor
    · rw [min_eq_left (le_of_lt (lt_trans h1 h2)), neg_div]
    · rw [max_eq_right (le_of_lt (lt_trans h1 h2))]

theorem gapFold4 (A B : ℝ) (hB : 0 < B) (hBA : B < A) (hA2B : A < 2 * B)
    (hApi : A < Real.pi / 2) :
    gapFold [-A, -B, B, A] 4 [0, 1, 2, 3] (-1, -1) = (2 * Real.pi - 2 * A, 3) := by
  have hpi : 0 < Real.pi := Real.pi_pos
  have g0 : List.getD [-A, -B, B, A] 0 0 = -A := rfl
  have g1 : List.getD [-A, -B, B, A] 1 0 = -B := rfl
  have g2 : List.getD [-A, -B, B, A] 2 0 = B := rfl
  have g3 : List.getD [-A, -B, B, A] 3 0 = A := rfl
  rw [gapFold]
  dsimp only
  rw [show ((0 : ℕ) + 1) % 4 = 1 from rfl, g1, g0,
      if_neg (by decide : ¬((0 : ℕ) = 4 - 1))]
  rw [if_pos (by linarith : (-1 : ℝ) < -B + 0 - -A)]
  rw [gapFold]
  dsimp only
  rw [show ((1 : ℕ) + 1) % 4 = 2 from rfl, g2, g1,
      if_neg (by decide : ¬((1 : ℕ) = 4 - 1))]
  rw [if_pos (by linarith : (-B + 0 - -A : ℝ) < B + 0 - -B)]
  rw [gapFold]
  dsimp only
  rw [show ((2 : ℕ) + 1) % 4 = 3 from rfl, g3, g2,
      if_neg (by decide : ¬((2 : ℕ) = 4 - 1))]
  rw [if_neg (not_lt.mpr (by linarith : (A + 0 - B : ℝ) ≤ B + 0 - -B))]
  rw [gapFold]
  dsimp only
  rw [show ((3 : ℕ) + 1) % 4 = 0 from rfl, g0, g3,
      if_pos (by decide : (3 : ℕ) = 4 - 1)]
  rw [if_pos (by linarith : (B + 0 - -B : ℝ) < -A + 2 * Real.pi - A)]
  rw [gapFold]
  rw [Prod.mk.injEq]
  constructor
  · ring
  · rfl

theorem fallback_arc :
    anglesToTargetArc fallbackHalfState =
      (-(Real.arctan (1 / 17)), Real.arctan (1 / 17)) := by
  have hApos : 0 < Real.arctan (1 / 17) := arctan17_pos
  have hBpos : 0 < Real.arctan (1 / 19) := arctan19_pos
  have hBA : Real.arctan (1 / 19) < Real.arctan (1 / 17) := arctan19_lt_17
  have e800lo : atan2R ((460 : ℝ) - 500) (800 - 120) = -(Real.arctan (1 / 17)) := by
    unfold atan2R
    rw [if_pos (by norm_num : (0 : ℝ) < 800 - 120)]
    rw [show ((460 : ℝ) - 500) / (800 - 120) = -(1 / 17) by norm_num]
    rw [Real.arctan_neg]
  have e880lo : atan2R ((460 : ℝ) - 500) (800 + 80 - 120) = -(Real.arctan (1 / 19)) := by
    unfold atan2R
    rw [if_pos (by norm_num : (0 : ℝ) < 800 + 80 - 120)]
    rw [show ((460 : ℝ) - 500) / (800 + 80 - 120) = -(1 / 19) by norm_num]
    rw [Real.arctan_neg]
  have e880hi : atan2R ((460 : ℝ) + 80 - 500) (800 + 80 - 120) = Real.arctan (1 / 19) := by
    unfold atan2R
    rw [if_pos (by norm_num : (0 : ℝ) < 800 + 80 - 120)]
    rw [show ((460 : ℝ) + 80 - 500) / (800 + 80 - 120) = 1 / 19 by norm_num]
  have e800hi : atan2R ((460 : ℝ) + 80 - 500) (800 - 120) = Real.arctan (1 / 17) := by
    unfold atan2R
    rw [if_pos (by norm_num : (0 : ℝ) < 800 - 120)]
    rw [show ((460 : ℝ) + 80 - 500) / (800 - 120) = 1 / 17 by norm_num]
  have ht : fallbackHalfState.target = Target.mk 800 460 80 80 := rfl
  have he : fallbackHalfState.emitter = ((120 : ℝ), (500 : ℝ)) := rfl
  unfold anglesToTargetArc
  rw [ht, he]
  dsimp only
  simp only [List.map]
  rw [e800lo, e880lo, e880hi, e800hi]
  unfold sortAsc
  simp only [List.foldr]
  have s2 : insertSorted (Real.arctan (1 / 19)) [Real.arctan (1 / 17)] =
      [Real.arctan (1 / 19), Real.arctan (1 / 17)] := by
    rw [insertSorted, if_pos (le_of_lt hBA)]
  have s1 : insertSorted (-(Real.arctan (1 / 19)))
      [Real.arctan (1 / 19), Real.arctan (1 / 17)] =
      [-(Real.arctan (1 / 19)), Real.arctan (1 / 19), Real.arctan (1 / 17)] := by
    rw [insertSorted, if_pos (by linarith)]
  have s0 : insertSorted (-(Real.arctan (1 / 17)))
      [-(Real.arctan (1 / 19)), Real.arctan (1 / 19), Real.arctan (1 / 17)] =
      [-(Real.arctan (1 / 17)), -(Real.arctan (1 / 19)), Real.arctan (1 / 19),
        Real.arctan (1 / 17)] := by
    rw [insertSorted, if_pos (by linarith)]
  rw [show insertSorted (Real.arctan (1 / 17)) [] = [Real.arctan (1 / 17)] from rfl,
      s2, s1, s0]
  rw [show List.length [-(Real.arctan (1 / 17)), -(Real.arctan (1 / 19)),
        Real.arctan (1 / 19), Real.arctan (1 / 17)] = 4 from rfl]
  rw [show List.range 4 = [0, 1, 2, 3] from rfl]
  rw [gapFold4 (Real.arctan (1 / 17)) (Real.arctan (1 / 19)) hBpos hBA arctan17_lt_two19
      (lt_trans arctan17_lt_pi4 (by linarith [Real.pi_pos]))]
  dsimp only
  rw [show (((3 : ℤ)).toNat + 1) % 4 = 0 from rfl]
  rw [show List.getD [-(Real.arctan (1 / 17)), -(Real.arctan (1 / 19)),
        Real.arctan (1 / 19), Real.arctan (1 / 17)] 0 0 = -(Real.arctan (1 / 17)) from rfl]
  rw [Prod.mk.injEq]
  constructor
  · rfl
  · ring

set_option maxHeartbeats 1600000 in
theorem fek_interval (ang : ℝ)
    (h1 : -(Real.arctan (1 / 17)) ≤ ang) (h2 : ang ≤ Real.arctan (1 / 17)) :
    firstEventKind fallbackHalfState fallbackHalfState.emitter
      (Real.cos ang, Real.sin ang) = EventKind.reflectorK := by
  set c := Real.cos ang with hc
  set s := Real.sin ang with hs
  have hpi : 0 < Real.pi := Real.pi_pos
  have hA17 : Real.arctan (1 / 17) < Real.pi / 2 :=
    lt_trans arctan17_lt_pi4 (by linarith)
  have hang_lo : -(Real.pi / 2) < ang := by linarith
  have hang_hi : ang < Real.pi / 2 := lt_of_le_of_lt h2 hA17
  have hcpos : 0 < c := Real.cos_pos_of_mem_Ioo ⟨hang_lo, hang_hi⟩
  have hc0 : c ≠ 0 := ne_of_gt hcpos
  have hchalf : 1 / 2 ≤ c := by
    have habs : |ang| ≤ Real.arctan (1 / 17) := abs_le.mpr ⟨h1, h2⟩
    calc (1 / 2 : ℝ) = Real.cos (Real.pi / 3) := Real.cos_pi_div_three.symm
      _ ≤ Real.cos |ang| :=
          Real.cos_le_cos_of_nonneg_of_le_pi (abs_nonneg ang) (by linarith)
            (by linarith [arctan17_lt_inv, Real.pi_gt_three])
      _ = c := by rw [Real.cos_abs]
  have hcle1 : c ≤ 1 := Real.cos_le_one ang
  have hsc : s = Real.tan ang * c := (Real.tan_mul_cos hc0).symm
  have htan_le : Real.tan ang ≤ 1 / 17 := by
    rcases eq_or_lt_of_le h2 with he | hlt
    · rw [he, Real.tan_arctan]
    · have h := Real.tan_lt_tan_of_lt_of_lt_pi_div_two hang_lo hA17 hlt
      rw [Real.tan_arctan] at h
      exact le_of_lt h
  have htan_ge : -(1 / 17) ≤ Real.tan ang := by
    rcases eq_or_lt_of_le h1 with he | hlt
    · rw [← he, Real.tan_neg, Real.tan_arctan]
    · have h := Real.tan_lt_tan_of_lt_of_lt_pi_div_two
        (by linarith : -(Real.pi / 2) < -(Real.arctan (1 / 17))) hang_hi hlt
      rw [Real.tan_neg, Real.tan_arctan] at h
      linarith
  have hs_le : s ≤ c / 17 := by
    rw [hsc]
    nlinarith
  have hs_ge : -(c / 17) ≤ s := by
    rw [hsc]
    nlinarith
  have habs_s : |s| ≤ c / 17 := abs_le.mpr ⟨hs_ge, hs_le⟩
  have hsumsq : s ^ 2 + c ^ 2 = 1 := by
    rw [hs, hc]
    exact Real.sin_sq_add_cos_sq ang
  have hssq : s ^ 2 ≤ 1 := by nlinarith [sq_nonneg c]
  have hc_not_small : ¬|c| < 1e-12 := by
    rw [abs_of_pos hcpos]
    push_neg
    linarith
  have hdiv_ge : ∀ m : ℝ, 0 < m → m ≤ m / c := by
    intro m hm
    rw [le_div_iff hcpos]
    nlinarith
  have hseg : raySegmentIntersection ((120 : ℝ), (500 : ℝ)) (c, s)
      ((480 : ℝ), (620 : ℝ)) ((480 : ℝ), (380 : ℝ)) =
      some (360 / c, 1 / 2 - 3 / 2 * (s / c),
        vAdd (120, 500) (vMul (c, s) (360 / c))) := by
    unfold raySegmentIntersection vCross vSub
    dsimp only
    rw [show ((380 : ℝ) - 620) = -240 by norm_num,
        show ((480 : ℝ) - 480) = 0 by norm_num,
        show ((480 : ℝ) - 120) = 360 by norm_num,
        show ((620 : ℝ) - 500) = 120 by norm_num]
    rw [show c * (-240) - s * 0 = -(240 * c) by ring]
    rw [if_neg (by
      rw [abs_neg, abs_of_pos (by linarith : (0 : ℝ) < 240 * c)]
      push_neg
      linarith)]
    rw [show (360 : ℝ) * (-240) - 120 * 0 = -86400 by norm_num]
    rw [show (-86400 : ℝ) / -(240 * c) = 360 / c by
      rw [neg_div_neg_eq,
        div_eq_div_iff (show (240 : ℝ) * c ≠ 0 from ne_of_gt (by linarith)) hc0]
      ring]
    rw [show (360 * s - 120 * c) / -(240 * c) = 1 / 2 - 3 / 2 * (s / c) by
      field_simp
      ring]
    rw [if_pos ?cond]
    case cond =>
      have hsdiv_le : s / c ≤ 1 / 17 := by
        rw [div_le_iff hcpos]
        linarith
      have hsdiv_ge : -(1 / 17) ≤ s / c := by
        rw [le_div_iff hcpos]
        linarith
      refine ⟨?_, ?_, ?_⟩
      · rw [RAY_EPS]
        linarith [hdiv_ge 360 (by norm_num)]
      · linarith
      · linarith
  have h680le : (680 : ℝ) / c ≤ 760 / c := by
    rw [div_le_div_iff hcpos hcpos]
    nlinarith
  have htin : rayAABBIntersection ((120 : ℝ), (500 : ℝ)) (c, s)
      (Target.aabb (Target.mk 800 460 80 80)) = some (680 / c) := by
    unfold Target.aabb rayAABBIntersection slabLoHi finishIntersection
    dsimp only
    rw [if_neg hc_not_small]
    rw [show ((800 : ℝ) - 120) = 680 by norm_num,
        show ((800 : ℝ) + 80 - 120) = 760 by norm_num]
    rw [min_eq_left h680le, max_eq_right h680le]
    by_cases hsmall : |s| < 1e-12
    · rw [if_pos hsmall]
      rw [if_neg (by norm_num : ¬((500 : ℝ) < 460 ∨ (460 : ℝ) + 80 < 500))]
      rw [if_neg (not_lt.mpr (show RAY_EPS ≤ 760 / c by
        rw [RAY_EPS]
        linarith [hdiv_ge 760 (by norm_num)]))]
      rw [if_pos (show RAY_EPS < 680 / c by
        rw [RAY_EPS]
        linarith [hdiv_ge 680 (by norm_num)])]
    · rw [if_neg hsmall]
      have hsne : s ≠ 0 := fun h0 => hsmall (by rw [h0]; norm_num)
      have hapos : 0 < |s| := abs_pos.mpr hsne
      rw [show ((460 : ℝ) - 500) = -40 by norm_num,
          show ((460 : ℝ) + 80 - 500) = 40 by norm_num]
      obtain ⟨hmn, hmx⟩ := symm_slab_minmax 40 s (by norm_num) hsne
      rw [hmn, hmx]
      have h40 : 680 / c ≤ 40 / |s| := by
        rw [div_le_div_iff hcpos hapos]
        nlinarith
      have hq : 0 < 40 / |s| := div_pos (by norm_num) hapos
      have hmaxe : max (680 / c) (-(40 / |s|)) = 680 / c :=
        max_eq_left (by linarith [hdiv_ge 680 (by norm_num)])
      rw [hmaxe]
      rw [if_neg (not_lt.mpr (le_min h680le h40))]
      rw [if_neg (not_lt.mpr (show RAY_EPS ≤ min (760 / c) (40 / |s|) by
        rw [RAY_EPS]
        have h1 := le_min h680le h40
        linarith [hdiv_ge 680 (by norm_num)]))]
      rw [if_pos (show RAY_EPS < 680 / c by
        rw [RAY_EPS]
        linarith [hdiv_ge 680 (by norm_num)])]
  have hexit : rayAABBExitDistanceFromInside ((120 : ℝ), (500 : ℝ)) (c, s)
      ((0 : ℝ), (0 : ℝ), (1000 : ℝ), (1000 : ℝ)) = some (880 / c) := by
    unfold rayAABBExitDistanceFromInside exitFinish
    dsimp only
    rw [if_neg hc_not_small]
    rw [show ((0 : ℝ) - 120) = -120 by norm_num,
        show ((0 : ℝ) + 1000 - 120) = 880 by norm_num]
    have hmaxer : max ((-120 : ℝ) / c) (880 / c) = 880 / c := by
      have hneg : (-120 : ℝ) / c < 0 := div_neg_of_neg_of_pos (by norm_num) hcpos
      have hposq : (0 : ℝ) < 880 / c := div_pos (by norm_num) hcpos
      exact max_eq_right (by linarith)
    rw [hmaxer]
    by_cases hsmall : |s| < 1e-12
    · rw [if_pos hsmall]
      rw [if_pos (show RAY_EPS < 880 / c by
        rw [RAY_EPS]
        linarith [hdiv_ge 880 (by norm_num)])]
    · rw [if_neg hsmall]
      have hsne : s ≠ 0 := fun h0 => hsmall (by rw [h0]; norm_num)
      have hapos : 0 < |s| := abs_pos.mpr hsne
      rw [show ((0 : ℝ) + 1000 - 500) = 1000 - 500 by norm_num]
      obtain ⟨_, hmx5, _⟩ := sym_div_bounds s hsmall hssq
      rw [hmx5]
      have h500 : 880 / c ≤ 500 / |s| := by
        rw [div_le_div_iff hcpos hapos]
        nlinarith
      rw [min_eq_left h500]
      rw [if_pos (show RAY_EPS < 880 / c by
        rw [RAY_EPS]
        linarith [hdiv_ge 880 (by norm_num)])]
  have h36 : (360 : ℝ) / c ≤ 680 / c := by
    rw [div_le_div_iff hcpos hcpos]
    nlinarith
  have h38 : (360 : ℝ) / c ≤ 880 / c := by
    rw [div_le_div_iff hcpos hcpos]
    nlinarith
  unfold firstEventKind
  rw [show fallbackHalfState.emitter = ((120 : ℝ), (500 : ℝ)) from rfl]
  rw [vNorm_unit (c, s) (by
    show c ^ 2 + s ^ 2 = 1
    linarith)]
  rw [show fallbackHalfState.reflectors =
      [Reflector.mk (480, 620) (480, 380) false false] from rfl]
  rw [show fallbackHalfState.target = Target.mk 800 460 80 80 from rfl]
  rw [show fallbackHalfState.bounds = ((0 : ℝ), (0 : ℝ), (1000 : ℝ), (1000 : ℝ)) from rfl]
  simp only [fekFold]
  rw [hseg]
  dsimp only
  rw [htin]
  dsimp only
  rw [if_neg (not_lt.mpr h36)]
  rw [hexit]
  dsimp only
  rw [if_neg (not_lt.mpr h38)]

theorem hds_none : ∀ fuel i : ℕ, i + fuel ≤ 22 →
    hdsLoop fallbackHalfState (-(Real.arctan (1 / 17)))
      (Real.arctan (1 / 17) - -(Real.arctan (1 / 17))) 21 i fuel = none := by
  intro fuel
  induction fuel with
  | zero =>
    intro i h
    rw [hdsLoop]
  | succ n ih =>
    intro i h
    have hApos : 0 < Real.arctan (1 / 17) := arctan17_pos
    have hi0 : (0 : ℝ) ≤ (i : ℝ) / 21 := by positivity
    have hi1 : (i : ℝ) / 21 ≤ 1 := by
      rw [div_le_one (by norm_num)]
      exact_mod_cast (by omega : i ≤ 21)
    have hlo : -(Real.arctan (1 / 17)) ≤
        -(Real.arctan (1 / 17)) +
          (Real.arctan (1 / 17) - -(Real.arctan (1 / 17))) * ((i : ℝ) / 21) := by
      nlinarith
    have hhi : -(Real.arctan (1 / 17)) +
        (Real.arctan (1 / 17) - -(Real.arctan (1 / 17))) * ((i : ℝ) / 21) ≤
        Real.arctan (1 / 17) := by
      nlinarith
    rw [hdsLoop]
    rw [show ((21 : ℕ) : ℝ) = (21 : ℝ) by norm_num]
    rw [fek_interval _ hlo hhi]
    rw [if_neg (show ¬(EventKind.reflectorK = EventKind.targetK) by decide)]
    exact ih (i + 1) (by omega)

theorem fallback_no_direct_shot : hasDirectShot fallbackHalfState = none := by
  have hden : (0 : ℝ) < 2 * Real.pi / 180 * 2 := by
    nlinarith [Real.pi_gt_three]
  have hx : (Real.arctan (1 / 17) - -(Real.arctan (1 / 17))) / (2 * Real.pi / 180 * 2)
      < 22 := by
    rw [div_lt_iff hden]
    nlinarith [arctan17_lt_inv, arctan17_pos, Real.pi_gt_three]
  have hfloor : ⌊(Real.arctan (1 / 17) - -(Real.arctan (1 / 17))) /
      (2 * Real.pi / 180 * 2)⌋ ≤ 21 := by
    have h22 : ⌊(Real.arctan (1 / 17) - -(Real.arctan (1 / 17))) /
        (2 * Real.pi / 180 * 2)⌋ < (22 : ℤ) := by
      rw [Int.floor_lt]
      push_cast
      exact hx
    omega
  have hsamp : (max 21 ⌊(Real.arctan (1 / 17) - -(Real.arctan (1 / 17))) /
      (2 * Real.pi / 180 * 2)⌋).toNat = 21 := by
    rw [max_eq_left hfloor]
    rfl
  unfold hasDirectShot
  rw [fallback_arc]
  dsimp only
  rw [hsamp]
  exact hds_none 22 0 (by omega)

theorem ensure_fallback (s : RandStream) (k : ℕ) :
    ensureNoDirectShot s fallbackHalfState k = (true, fallbackHalfState, k) := by
  unfold ensureNoDirectShot
  rw [show (30 : ℕ) = 29 + 1 from rfl, ensureLoop]
  rw [fallback_no_direct_shot]

theorem buildLevel_half :
    levelNew 1 constHalfStream 0 = computeDifficultyScore fallbackHalfState := by
  have h1 : (levelInit 1).num_reflections = 1 := by decide
  have h2 : (levelInit 1).target_size = 90 := by
    show ((max 26 (90 - 6 * ((1 : ℤ) - 1)) : ℤ) : ℝ) = 90
    norm_num
  have hw : ∀ j, j < 802 * (119 + 1) → constHalfStream (0 + j) = 1 / 2 := fun j hj => rfl
  have hA : attemptsLoop constHalfStream 120 (levelInit 1) 0 =
      (none, attemptResultState (levelInit 1), 96240) := by
    rw [show (120 : ℕ) = 119 + 1 from rfl,
      attemptsLoop_half constHalfStream 119 (levelInit 1) 0 h1 h2 hw]
  have hFw : ∀ j, j < 800 → constHalfStream (96240 + j) = 1 / 2 := fun j hj => rfl
  have hF := fallbackLevel_half constHalfStream (attemptResultState (levelInit 1)) 96240 hFw
  have hD : fallbackDir constHalfStream (96240 + 800) = ((-1 : ℝ), (0 : ℝ)) := by
    unfold fallbackDir constHalfStream
    rw [show (2 : ℝ) * Real.pi * (1 / 2) = Real.pi by ring]
    rw [Real.cos_pi, Real.sin_pi]
  rw [hD] at hF
  have ha : vSub ((480 : ℝ), (500 : ℝ)) (vMul (vPerp ((-1 : ℝ), (0 : ℝ))) 120)
      = ((480 : ℝ), (620 : ℝ)) := by
    unfold vSub vMul vPerp
    norm_num
  have hb : vAdd ((480 : ℝ), (500 : ℝ)) (vMul (vPerp ((-1 : ℝ), (0 : ℝ))) 120)
      = ((480 : ℝ), (380 : ℝ)) := by
    unfold vAdd vMul vPerp
    norm_num
  rw [ha, hb] at hF
  have hF2 : fallbackLevel constHalfStream (attemptResultState (levelInit 1)) 96240 =
      (fallbackHalfState, 97041) := by
    rw [hF]
    rfl
  unfold levelNew buildLevel
  rw [hA]
  dsimp only
  rw [hF2]
  dsimp only
  rw [ensure_fallback]

theorem fallbackReflNormal :
    (Reflector.mk ((480 : ℝ), (620 : ℝ)) ((480 : ℝ), (380 : ℝ)) false false).normal
      = ((1 : ℝ), (0 : ℝ)) := by
  unfold Reflector.normal Reflector.direction
  dsimp only
  rw [show vSub ((480 : ℝ), (380 : ℝ)) ((480 : ℝ), (620 : ℝ)) = ((0 : ℝ), (-240 : ℝ)) by
    unfold vSub
    norm_num]
  rw [show vNorm ((0 : ℝ), (-240 : ℝ)) = ((0 : ℝ), (-1 : ℝ)) by
    unfold vNorm
    rw [vLen_vertical]
    rw [show |(-240 : ℝ)| = (240 : ℝ) by norm_num]
    rw [if_neg (by norm_num : ¬((240 : ℝ) ≤ 1e-12))]
    norm_num]
  rw [show vPerp ((0 : ℝ), (-1 : ℝ)) = ((1 : ℝ), (0 : ℝ)) by
    unfold vPerp
    norm_num]
  rw [vLen_horizontal, abs_of_pos (by norm_num : (0 : ℝ) < 1)]
  rw [if_neg (by norm_num : ¬((1 : ℝ) ≤ 1e-12))]
  norm_num

theorem fallbackReflDir :
    vNorm (reflect ((1 : ℝ), (0 : ℝ)) ((1 : ℝ), (0 : ℝ))) = ((-1 : ℝ), (0 : ℝ)) := by
  rw [show reflect ((1 : ℝ), (0 : ℝ)) ((1 : ℝ), (0 : ℝ)) = ((-1 : ℝ), (0 : ℝ)) by
    unfold reflect vDot vSub vMul
    norm_num]
  exact vNorm_neg_x (-1) (by norm_num)

theorem cast_step1 :
    nearestCandidate [Reflector.mk ((480 : ℝ), (620 : ℝ)) ((480 : ℝ), (380 : ℝ)) false false]
      (Target.mk 800 460 80 80) ((0 : ℝ), (0 : ℝ), (1000 : ℝ), (1000 : ℝ)) none
      ((120 : ℝ), (500 : ℝ)) ((1 : ℝ), (0 : ℝ)) =
    some (Cand.refl 0 (Reflector.mk ((480 : ℝ), (620 : ℝ)) ((480 : ℝ), (380 : ℝ)) false false)
      360 (1 / 2) ((480 : ℝ), (500 : ℝ))) := by
  have hseg : raySegmentIntersection ((120 : ℝ), (500 : ℝ)) ((1 : ℝ), (0 : ℝ))
      ((480 : ℝ), (620 : ℝ)) ((480 : ℝ), (380 : ℝ)) =
      some (360, 1 / 2, ((480 : ℝ), (500 : ℝ))) := by
    unfold raySegmentIntersection vCross vSub vAdd vMul RAY_EPS
    norm_num [Option.some.injEq, Prod.mk.injEq]
  have htin : rayAABBIntersection ((120 : ℝ), (500 : ℝ)) ((1 : ℝ), (0 : ℝ))
      (Target.aabb (Target.mk 800 460 80 80)) = some 680 := by
    unfold rayAABBIntersection Target.aabb slabLoHi finishIntersection RAY_EPS
    norm_num [min_def, max_def]
  have hex : rayAABBExitDistanceFromInside ((120 : ℝ), (500 : ℝ)) ((1 : ℝ), (0 : ℝ))
      ((0 : ℝ), (0 : ℝ), (1000 : ℝ), (1000 : ℝ)) = some 880 := by
    unfold rayAABBExitDistanceFromInside exitFinish RAY_EPS
    norm_num [min_def, max_def]
  simp only [nearestCandidate, enumFrom, foldRefl, foldReflStep, hseg, htin, hex]
  rw [if_neg (show ¬((none : Option ℕ) = some 0) by simp)]
  norm_num [Cand.tOf, CORNER_TOL_FRAC]

theorem cast_step2 :
    nearestCandidate [Reflector.mk ((480 : ℝ), (620 : ℝ)) ((480 : ℝ), (380 : ℝ)) false false]
      (Target.mk 800 460 80 80) ((0 : ℝ), (0 : ℝ), (1000 : ℝ), (1000 : ℝ)) (some 0)
      ((479.999 : ℝ), (500 : ℝ)) ((-1 : ℝ), (0 : ℝ)) =
    some (Cand.exitC 479.999 ((0 : ℝ), (500 : ℝ))) := by
  have htin2 : rayAABBIntersection ((479.999 : ℝ), (500 : ℝ)) ((-1 : ℝ), (0 : ℝ))
      (Target.aabb (Target.mk 800 460 80 80)) = none := by
    unfold rayAABBIntersection Target.aabb slabLoHi finishIntersection RAY_EPS
    norm_num [min_def, max_def]
  have hex2 : rayAABBExitDistanceFromInside ((479.999 : ℝ), (500 : ℝ)) ((-1 : ℝ), (0 : ℝ))
      ((0 : ℝ), (0 : ℝ), (1000 : ℝ), (1000 : ℝ)) = some 479.999 := by
    unfold rayAABBExitDistanceFromInside exitFinish RAY_EPS
    norm_num [min_def, max_def]
  simp only [nearestCandidate, enumFrom, foldRefl, foldReflStep, htin2, hex2]
  norm_num [vAdd, vMul]

/-- C1 counterexample: under the all-halves random stream every one of the
120 generation attempts fails, so the level is produced through the fallback
branch; casting from its emitter `(120, 500)` along its solution direction
`(1, 0)` bounces off the fallback reflector at `(480, 500)` straight back to
the left wall, so `hitTarget` is `false` — the fallback level's stored
solution path is not validated by the cast. -/
theorem fallback_solution_misses_counterexample :
    (raycastPath (levelNew 1 constHalfStream 0).reflectors
        (levelNew 1 constHalfStream 0).target
        (levelNew 1 constHalfStream 0).bounds
        (levelNew 1 constHalfStream 0).emitter
        (levelNew 1 constHalfStream 0).solution_first_dir MAX_BOUNCES).2.1 = false := by
  obtain ⟨hr, ht, he, hd, hb⟩ := computeDifficultyScore_geometry fallbackHalfState
  rw [buildLevel_half, hr, ht, he, hd, hb]
  rw [show fallbackHalfState.reflectors =
        [Reflector.mk ((480 : ℝ), (620 : ℝ)) ((480 : ℝ), (380 : ℝ)) false false] from rfl,
      show fallbackHalfState.target = Target.mk 800 460 80 80 from rfl,
      show fallbackHalfState.bounds = ((0 : ℝ), (0 : ℝ), (1000 : ℝ), (1000 : ℝ)) from rfl,
      show fallbackHalfState.emitter = ((120 : ℝ), (500 : ℝ)) from rfl,
      show fallbackHalfState.solution_first_dir = ((1 : ℝ), (0 : ℝ)) from rfl]
  unfold raycastPath MAX_BOUNCES
  rw [vNorm_pos_x 1 (by norm_num)]
  rw [raycastLoop_step_refl _ _ _ 20 _ _ _ _ _ 0 _ 360 (1 / 2) ((480 : ℝ), (500 : ℝ))
    cast_step1]
  rw [fallbackReflNormal, fallbackReflDir]
  rw [show vAdd ((480 : ℝ), (500 : ℝ)) (vMul ((-1 : ℝ), (0 : ℝ)) STEP_EPS)
      = ((479.999 : ℝ), (500 : ℝ)) by
    unfold vAdd vMul STEP_EPS
    norm_num]
  rw [show (20 : ℕ) = 19 + 1 from rfl]
  rw [raycastLoop_step_exit _ _ _ 19 _ _ _ _ _ 479.999 ((0 : ℝ), (500 : ℝ)) cast_step2]

end

end RayTrace
